import Mathlib

/-!
# csi-powerstore: request serialization interceptors

A shallow embedding of `service/interceptors.go`.

* Go values that live behind pointers (the `gosync.TryMutex` objects stored in the
  lock provider's maps) are modelled by a heap: a list of mutex cells, the address
  of a cell being its index.  Pointer identity is address equality.
* A Go `map[string]gosync.TryLocker` is an association list with the indexing and
  assignment semantics of Go maps.
* Functions that act on the registry are written in explicit state-passing style
  over `World`.  A `World` also carries a log of the externally visible effects
  performed so far (`TryLock`, `Unlock` and downstream handler invocations).
* A Go function that may panic returns `Res` / `Outcome`.
* Goroutine interleavings are modelled by a step function on configurations
  (`Config.step`), each step being one atomic action of one invocation.
-/

namespace CsiPowerstore

/-! ## Protocol types -/

/-- Status codes of `google.golang.org/grpc/codes`. -/
inductive codes where
  | OK | Canceled | Unknown | InvalidArgument | DeadlineExceeded | NotFound
  | AlreadyExists | PermissionDenied | ResourceExhausted | FailedPrecondition
  | Aborted | OutOfRange | Unimplemented | Internal | Unavailable | DataLoss
  | Unauthenticated
  deriving DecidableEq, Repr

/-- A non-nil Go `error` value: either one built by `status.Error`, or any other error. -/
inductive GoError where
  | status (c : codes) (msg : String)
  | other (msg : String)
  deriving DecidableEq, Repr

/-- Go `error`: `none` is `nil`. -/
abbrev error := Option GoError

/-- `status.Error(c, msg)`: `nil` for code `OK`, otherwise a status error. -/
def status.Error (c : codes) (msg : String) : error :=
  if c = codes.OK then none else some (GoError.status c msg)

/-- `metadata.MD`, a `map[string][]string`. -/
abbrev MD := List (String × List String)

/-- The comma-ok index expression `md[key]` on a `metadata.MD`. -/
def MD.index : MD → String → List String × Bool
  | [], _ => ([], false)
  | (k, v) :: md, key => if k = key then (v, true) else MD.index md key

/-- The part of a `context.Context` the interceptors look at: the incoming gRPC
metadata, if any, and the chain of `context.WithValue` bindings (innermost first). -/
structure Context where
  incomingMD : Option MD
  values : List (String × String)
  deriving DecidableEq, Repr

/-- `context.WithValue(ctx, key, val)`. -/
def context.WithValue (ctx : Context) (key val : String) : Context :=
  { ctx with values := (key, val) :: ctx.values }

/-- `ctx.Value(key)`: the innermost binding of `key`. -/
def Context.Value (ctx : Context) (key : String) : Option String :=
  ctx.values.lookup key

/-- `metadata.FromIncomingContext(ctx)`. -/
def metadata.FromIncomingContext (ctx : Context) : MD × Bool :=
  match ctx.incomingMD with
  | some md => (md, true)
  | none => ([], false)

/-- `csi.NodeStageVolumeRequest`. -/
structure NodeStageVolumeRequest where
  VolumeId : String
  PublishContext : List (String × String)
  StagingTargetPath : String
  Secrets : List (String × String)
  VolumeContext : List (String × String)
  deriving DecidableEq, Repr

/-- `csi.NodeUnstageVolumeRequest`. -/
structure NodeUnstageVolumeRequest where
  VolumeId : String
  StagingTargetPath : String
  deriving DecidableEq, Repr

/-- The `req interface{}` argument of a unary interceptor, by dynamic type. -/
inductive Request where
  | NodeStageVolume (r : NodeStageVolumeRequest)
  | NodeUnstageVolume (r : NodeUnstageVolumeRequest)
  | Other (typeName : String) (payload : String)
  deriving DecidableEq, Repr

/-- `grpc.UnaryServerInfo`. -/
structure UnaryServerInfo where
  FullMethod : String
  deriving DecidableEq, Repr

/-- How a call of a Go function `(interface{}, error)` ends: it returns its two
results, or it panics. -/
inductive Outcome where
  | returned (res : Option String) (err : error)
  | panicked (v : String)
  deriving DecidableEq, Repr

/-- `grpc.UnaryHandler`: the downstream handler.  It has no access to the lock
provider, which is private to the closure built by `NewCustomSerialLock`. -/
abbrev UnaryHandler := Context → Request → Outcome

/-- Result of a Go call that may panic. -/
inductive Res (α : Type) where
  | ok (a : α)
  | panic (v : String)
  deriving DecidableEq, Repr

/-! ## Heap, maps and the lock provider -/

/-- Modelled from the spec: the state of a `gosync.TryMutex` (package
`github.com/akutz/gosync`), a lock instance with binary state unlocked / locked. -/
structure TryMutex where
  locked : Bool
  deriving DecidableEq, Repr

/-- Address of a heap-allocated `gosync.TryMutex`. -/
abbrev Addr := Nat

/-- A `gosync.TryLocker` interface value: `nil` or a pointer to a `TryMutex`. -/
abbrev TryLocker := Option Addr

/-- A `map[string]gosync.TryLocker`. -/
abbrev GoMap := List (String × TryLocker)

/-- The index expression `m[k]`: the stored value, or the zero value `nil`. -/
def GoMap.get : GoMap → String → TryLocker
  | [], _ => none
  | (k', v') :: m, k => if k' = k then v' else GoMap.get m k

/-- The assignment `m[k] = v`. -/
def GoMap.set : GoMap → String → TryLocker → GoMap
  | [], k, v => [(k, v)]
  | (k', v') :: m, k, v => if k' = k then (k, v) :: m else (k', v') :: GoMap.set m k v

/-- The keys of a map. -/
def GoMap.keys (m : GoMap) : List String := m.map Prod.fst

/-- The values of a map. -/
def GoMap.vals (m : GoMap) : List TryLocker := m.map Prod.snd

/-- The two maps of `lockProvider`.  The guards `volIDLocksL` and `volNameLocksL`
make each lookup-or-insert one atomic action; they carry no other state. -/
structure lockProvider where
  volIDLocks : GoMap
  volNameLocks : GoMap
  deriving DecidableEq, Repr

/-- Externally visible effects, in the order they happen. -/
inductive Event where
  | TryLock (lock : Addr) (timeout : Int) (ok : Bool)
  | Unlock (lock : Addr)
  | Handler (ctx : Context) (req : Request) (heap : List TryMutex)
  deriving DecidableEq, Repr

/-- The state the interceptor acts on. -/
structure World where
  heap : List TryMutex
  locker : lockProvider
  log : List Event
  deriving DecidableEq, Repr

/-- Append an event to the log. -/
def World.emit (w : World) (e : Event) : World :=
  { w with log := w.log ++ [e] }

/-- `&gosync.TryMutex{}`: allocate a fresh, unlocked mutex. -/
def newTryMutex (w : World) : Addr × World :=
  (w.heap.length, { w with heap := w.heap ++ [TryMutex.mk false] })

/-- Modelled from the spec: `try_acquire(timeout)` of the try-lock primitive
(`gosync.TryMutex.TryLock`).  A free lock is taken and `true` returned; a held lock
gives `false`: at once for `timeout = 0`, and after the wait expired for a positive
timeout, since no other goroutine runs during a call in the sequential model.
A `nil` or dangling receiver panics. -/
def TryLocker.TryLock (lock : TryLocker) (timeout : Int) (w : World) : Res Bool × World :=
  match lock with
  | none => (Res.panic "invalid memory address or nil pointer dereference", w)
  | some a =>
    match w.heap[a]? with
    | none => (Res.panic "invalid memory address or nil pointer dereference", w)
    | some m =>
      if m.locked then (Res.ok false, w.emit (Event.TryLock a timeout false))
      else (Res.ok true,
        { w with heap := w.heap.set a (TryMutex.mk true) }.emit (Event.TryLock a timeout true))

/-- Modelled from the spec: `release()` of the try-lock primitive
(`gosync.TryMutex.Unlock`).  Releasing a lock that is not held is a fatal
programming error (a panic). -/
def TryLocker.Unlock (lock : TryLocker) (w : World) : Res Unit × World :=
  match lock with
  | none => (Res.panic "invalid memory address or nil pointer dereference", w)
  | some a =>
    match w.heap[a]? with
    | none => (Res.panic "invalid memory address or nil pointer dereference", w)
    | some m =>
      if m.locked then
        (Res.ok (), { w with heap := w.heap.set a (TryMutex.mk false) }.emit (Event.Unlock a))
      else (Res.panic "gosync: unlock of unlocked mutex", w)

/-- `lockProvider.GetLockWithID`. -/
def lockProvider.GetLockWithID (_ctx : Context) (id : String) (w : World) :
    (TryLocker × error) × World :=
  let lock := w.locker.volIDLocks.get id
  match lock with
  | none =>
    let (a, w1) := newTryMutex w
    ((some a, none),
      { w1 with locker := { w1.locker with volIDLocks := w1.locker.volIDLocks.set id (some a) } })
  | some a => ((some a, none), w)

/-- `lockProvider.GetLockWithName`. -/
def lockProvider.GetLockWithName (_ctx : Context) (name : String) (w : World) :
    (TryLocker × error) × World :=
  let lock := w.locker.volNameLocks.get name
  match lock with
  | none =>
    let (a, w1) := newTryMutex w
    ((some a, none),
      { w1 with locker :=
          { w1.locker with volNameLocks := w1.locker.volNameLocks.set name (some a) } })
  | some a => ((some a, none), w)

/-! ## The interceptors -/

/-- Run the downstream handler once, recording the call and the heap it runs in. -/
def invoke (handler : UnaryHandler) (ctx : Context) (req : Request) (w : World) :
    Outcome × World :=
  (handler ctx req, w.emit (Event.Handler ctx req w.heap))

/-- `grpc.UnaryServerInterceptor`, acting on the world. -/
abbrev UnaryServerInterceptor :=
  Context → Request → UnaryServerInfo → UnaryHandler → World → Outcome × World

/-- `rewriteRequestIDInterceptor.handleServer`.  The constant `csictx.RequestIDKey`
of package `github.com/rexray/gocsi/context` is a parameter.  Indexing `ID[0]` of an
empty slice is a run-time panic. -/
def rewriteRequestIDInterceptor.handleServer (RequestIDKey : String)
    (ctx : Context) (req : Request) (_info : UnaryServerInfo) (handler : UnaryHandler)
    (w : World) : Outcome × World :=
  let (md, mdOK) := metadata.FromIncomingContext ctx
  if mdOK then
    let (ID, IDOK) := MD.index md RequestIDKey
    if IDOK then
      match ID with
      | [] => (Outcome.panicked "runtime error: index out of range [0] with length 0", w)
      | id0 :: _ =>
        let newIDValue := RequestIDKey ++ "-" ++ id0
        invoke handler (context.WithValue ctx RequestIDKey newIDValue) req w
    else invoke handler ctx req w
  else invoke handler ctx req w

/-- `opts`.  The field `locker` always refers to the lock provider of the world. -/
structure opts where
  timeout : Int
  deriving DecidableEq, Repr

/-- `interceptor`. -/
structure interceptor where
  opts : opts
  deriving DecidableEq, Repr

/-- The constant `pending`. -/
def pending : String := "pending"

/-- `interceptor.nodeStageVolume`.  The type assertion `lock.(io.Closer)` fails for a
`*gosync.TryMutex` (its methods are `Lock`, `Unlock`, `TryLock`), so no `Close` is
deferred.  The deferred `lock.Unlock()` runs after the handler returned or panicked. -/
def interceptor.nodeStageVolume (i : interceptor) (ctx : Context)
    (req : NodeStageVolumeRequest) (_info : UnaryServerInfo) (handler : UnaryHandler)
    (w : World) : Outcome × World :=
  match lockProvider.GetLockWithID ctx req.VolumeId w with
  | ((_, some err), w1) => (Outcome.returned none (some err), w1)
  | ((lock, none), w1) =>
    match lock.TryLock i.opts.timeout w1 with
    | (Res.panic v, w2) => (Outcome.panicked v, w2)
    | (Res.ok false, w2) => (Outcome.returned none (status.Error codes.Aborted pending), w2)
    | (Res.ok true, w2) =>
      match invoke handler ctx (Request.NodeStageVolume req) w2 with
      | (out, w3) =>
        match lock.Unlock w3 with
        | (Res.panic v, w4) => (Outcome.panicked v, w4)
        | (Res.ok (), w4) => (out, w4)

/-- `interceptor.nodeUnstageVolume`. -/
def interceptor.nodeUnstageVolume (i : interceptor) (ctx : Context)
    (req : NodeUnstageVolumeRequest) (_info : UnaryServerInfo) (handler : UnaryHandler)
    (w : World) : Outcome × World :=
  match lockProvider.GetLockWithID ctx req.VolumeId w with
  | ((_, some err), w1) => (Outcome.returned none (some err), w1)
  | ((lock, none), w1) =>
    match lock.TryLock i.opts.timeout w1 with
    | (Res.panic v, w2) => (Outcome.panicked v, w2)
    | (Res.ok false, w2) => (Outcome.returned none (status.Error codes.Aborted pending), w2)
    | (Res.ok true, w2) =>
      match invoke handler ctx (Request.NodeUnstageVolume req) w2 with
      | (out, w3) =>
        match lock.Unlock w3 with
        | (Res.panic v, w4) => (Outcome.panicked v, w4)
        | (Res.ok (), w4) => (out, w4)

/-- The lock provider built by `NewCustomSerialLock`: both maps empty. -/
def NewCustomSerialLock.locker : World :=
  { heap := [], locker := { volIDLocks := [], volNameLocks := [] }, log := [] }

/-- The closure `handle` of `NewCustomSerialLock`.  The generic serializer
`serialvolume.New(serialvolume.WithLockProvider(locker))` of package gocsi is a
parameter; it shares the lock provider of the world. -/
def NewCustomSerialLock.handle (gocsiSerializer : UnaryServerInterceptor) :
    UnaryServerInterceptor :=
  fun ctx req info handler =>
    let i : interceptor := { opts := { timeout := 0 } }
    match req with
    | Request.NodeStageVolume treq => i.nodeStageVolume ctx treq info handler
    | Request.NodeUnstageVolume treq => i.nodeUnstageVolume ctx treq info handler
    | _ => gocsiSerializer ctx req info handler

/-- `NewCustomSerialLock`: the fresh lock provider and the interceptor over it. -/
def NewCustomSerialLock (gocsiSerializer : UnaryServerInterceptor) :
    World × UnaryServerInterceptor :=
  (NewCustomSerialLock.locker, NewCustomSerialLock.handle gocsiSerializer)

/-! ## Observations on a world -/

/-- The ID-namespace lock of key `k` exists and is held. -/
def World.idHeld (w : World) (k : String) : Bool :=
  match w.locker.volIDLocks.get k with
  | none => false
  | some a =>
    match w.heap[a]? with
    | none => false
    | some m => m.locked

/-- The ID-namespace lock of key `k` is free: not created yet, or unlocked. -/
def World.idFree (w : World) (k : String) : Bool :=
  match w.locker.volIDLocks.get k with
  | none => true
  | some a =>
    match w.heap[a]? with
    | none => false
    | some m => !m.locked

/-- The mutex at address `a` is allocated and locked. -/
def World.lockedAt (w : World) (a : Addr) : Bool :=
  match w.heap[a]? with
  | none => false
  | some m => m.locked

/-- A stored map value is a pointer to an allocated mutex. -/
def validLocker (n : Nat) : TryLocker → Bool
  | none => false
  | some a => decide (a < n)

/-- Well-formed worlds: every map holds one entry per key, every stored value points
to an allocated mutex, and no mutex is stored twice (in either map). -/
def World.WF (w : World) : Prop :=
  w.locker.volIDLocks.keys.Nodup ∧ w.locker.volNameLocks.keys.Nodup ∧
  (w.locker.volIDLocks.vals ++ w.locker.volNameLocks.vals).Nodup ∧
  ∀ v ∈ w.locker.volIDLocks.vals ++ w.locker.volNameLocks.vals,
    validLocker w.heap.length v = true

instance (w : World) : Decidable w.WF := by
  unfold World.WF; infer_instance

/-- The events a call appended to the log. -/
def World.newEvents (before after : World) : List Event :=
  after.log.drop before.log.length

/-- The handler invocations recorded in a list of events, with their arguments. -/
def handlerArgs : List Event → List (Context × Request)
  | [] => []
  | Event.Handler ctx req _ :: es => (ctx, req) :: handlerArgs es
  | _ :: es => handlerArgs es

/-- Number of `Unlock` calls on address `a` recorded in a list of events. -/
def unlockCalls (a : Addr) : List Event → Nat
  | [] => 0
  | Event.Unlock b :: es => (if b = a then 1 else 0) + unlockCalls a es
  | _ :: es => unlockCalls a es

/-- Postcondition of a wrapper call that found its lock held: the pending error with
a nil response, no handler invocation, no unlock of any lock, registry and mutexes
untouched, the lock of `k` still held. -/
def PendingAbort (w : World) (k : String) (r : Outcome × World) : Prop :=
  r.1 = Outcome.returned none (some (GoError.status codes.Aborted "pending")) ∧
  handlerArgs (w.newEvents r.2) = [] ∧
  (∀ a, unlockCalls a (w.newEvents r.2) = 0) ∧
  r.2.heap = w.heap ∧ r.2.locker = w.locker ∧ r.2.idHeld k = true

/-- Postcondition of a wrapper call that reached its handler: the handler ran exactly
once, on `ctx` and `req`, and its outcome is the outcome of the call. -/
def PassedThrough (ctx : Context) (req : Request) (handler : UnaryHandler) (w : World)
    (r : Outcome × World) : Prop :=
  r.1 = handler ctx req ∧ handlerArgs (w.newEvents r.2) = [(ctx, req)]

/-- Postcondition of a wrapper call that acquired the lock of `k`: the call performed
a successful `TryLock`, then the handler call, then one `Unlock`, all on the lock the
registry holds for `k`; the mutex was locked in the heap the handler ran in; and the
lock is free afterwards. -/
def LockedAround (timeout : Int) (ctx : Context) (req : Request) (k : String) (w : World)
    (r : Outcome × World) : Prop :=
  ∃ a hp, GoMap.get r.2.locker.volIDLocks k = some a ∧
    w.newEvents r.2 =
      [Event.TryLock a timeout true, Event.Handler ctx req hp, Event.Unlock a] ∧
    hp[a]? = some (TryMutex.mk true) ∧
    unlockCalls a (w.newEvents r.2) = 1 ∧
    r.2.idFree k = true

/-- The result of `TryLock(0)` on the lock the registry holds for ID key `k`. -/
def World.tryLockID (w : World) (k : String) : Res Bool :=
  (TryLocker.TryLock (GoMap.get w.locker.volIDLocks k) 0 w).1

/-! ## Sequences of registry lookups -/

/-- One lookup on the lock provider. -/
inductive LockCall where
  | ID (id : String)
  | Name (name : String)
  deriving DecidableEq, Repr

/-- Perform one lookup. -/
def LockCall.run (ctx : Context) (c : LockCall) (w : World) : (TryLocker × error) × World :=
  match c with
  | LockCall.ID id => lockProvider.GetLockWithID ctx id w
  | LockCall.Name name => lockProvider.GetLockWithName ctx name w

/-- Perform a sequence of lookups, collecting the results in order. -/
def runCalls (ctx : Context) : List LockCall → World → List (TryLocker × error) × World
  | [], w => ([], w)
  | c :: cs, w =>
    let (r, w1) := c.run ctx w
    let (rs, w2) := runCalls ctx cs w1
    (r :: rs, w2)

/-- The lock instance the registry currently stores for the key of a lookup. -/
def LockCall.stored (c : LockCall) (w : World) : TryLocker :=
  match c with
  | LockCall.ID id => GoMap.get w.locker.volIDLocks id
  | LockCall.Name name => GoMap.get w.locker.volNameLocks name

/-- A lock provider created with empty maps, in a heap `hp` of mutexes that exist
already. -/
def emptyProvider (hp : List TryMutex) : World :=
  { heap := hp, locker := { volIDLocks := [], volNameLocks := [] }, log := [] }

/-! ## Concurrent invocations

Each invocation of the stage / unstage wrapper built by `NewCustomSerialLock`
(timeout `0`) proceeds through the atomic actions of the wrapper's body, in program
order: the registry lookup (atomic under `volIDLocksL`), the try-lock attempt, the
handler call, and the deferred unlock.  A schedule picks which invocation moves next. -/

/-- A request handled by one of the two specialized wrappers. -/
inductive NodeRequest where
  | Stage (r : NodeStageVolumeRequest)
  | Unstage (r : NodeUnstageVolumeRequest)
  deriving DecidableEq, Repr

/-- The `VolumeId` field of the request. -/
def NodeRequest.VolumeId : NodeRequest → String
  | NodeRequest.Stage r => r.VolumeId
  | NodeRequest.Unstage r => r.VolumeId

/-- The request as the `interface{}` value handed to the handler. -/
def NodeRequest.toRequest : NodeRequest → Request
  | NodeRequest.Stage r => Request.NodeStageVolume r
  | NodeRequest.Unstage r => Request.NodeUnstageVolume r

/-- Program point of one invocation of `nodeStageVolume` / `nodeUnstageVolume`. -/
inductive PC where
  /-- Entered; `GetLockWithID` not yet called. -/
  | start
  /-- `GetLockWithID` returned `lock`; `TryLock` not yet attempted. -/
  | acquiring (lock : TryLocker)
  /-- `TryLock` returned `true`, `Unlock` is deferred, the handler has not finished. -/
  | inHandler (lock : TryLocker)
  /-- The handler ended with `out`; the deferred `Unlock` has not run yet. -/
  | releasing (lock : TryLocker) (out : Outcome)
  /-- The wrapper returned control to its caller. -/
  | done (out : Outcome)
  deriving DecidableEq, Repr

/-- The invocation is between its successful `TryLock` and the matching `Unlock`. -/
def PC.inCritical : PC → Bool
  | PC.inHandler _ => true
  | PC.releasing _ _ => true
  | _ => false

/-- One in-flight invocation. -/
structure Invocation where
  ctx : Context
  req : NodeRequest
  handler : UnaryHandler
  pc : PC

/-- The next atomic action of an invocation (interceptor timeout `0`). -/
def Invocation.step (t : Invocation) (w : World) : Invocation × World :=
  let i : interceptor := { opts := { timeout := 0 } }
  match t.pc with
  | PC.start =>
    match lockProvider.GetLockWithID t.ctx t.req.VolumeId w with
    | ((_, some err), w1) => ({ t with pc := PC.done (Outcome.returned none (some err)) }, w1)
    | ((lock, none), w1) => ({ t with pc := PC.acquiring lock }, w1)
  | PC.acquiring lock =>
    match lock.TryLock i.opts.timeout w with
    | (Res.panic v, w2) => ({ t with pc := PC.done (Outcome.panicked v) }, w2)
    | (Res.ok false, w2) =>
      ({ t with pc := PC.done (Outcome.returned none (status.Error codes.Aborted pending)) }, w2)
    | (Res.ok true, w2) => ({ t with pc := PC.inHandler lock }, w2)
  | PC.inHandler lock =>
    match invoke t.handler t.ctx t.req.toRequest w with
    | (out, w3) => ({ t with pc := PC.releasing lock out }, w3)
  | PC.releasing lock out =>
    match lock.Unlock w with
    | (Res.panic v, w4) => ({ t with pc := PC.done (Outcome.panicked v) }, w4)
    | (Res.ok (), w4) => ({ t with pc := PC.done out }, w4)
  | PC.done _ => (t, w)

/-- Let one invocation perform `fuel` actions with no other invocation moving. -/
def Invocation.runAlone : Nat → Invocation → World → Invocation × World
  | 0, t, w => (t, w)
  | fuel + 1, t, w => Invocation.runAlone fuel (t.step w).1 (t.step w).2

/-- The shared world and the invocations in flight. -/
structure Config where
  world : World
  invocations : List Invocation

/-- Let invocation number `n` perform its next action. -/
def Config.step (c : Config) (n : Nat) : Config :=
  match c.invocations[n]? with
  | none => c
  | some t =>
    match t.step c.world with
    | (t', w') => { world := w', invocations := c.invocations.set n t' }

/-- Run a schedule: the invocations move in the listed order. -/
def Config.run (c : Config) (schedule : List Nat) : Config :=
  schedule.foldl Config.step c

/-- All invocations have just entered their wrapper. -/
def Config.init (w : World) (calls : List (Context × NodeRequest × UnaryHandler)) : Config :=
  { world := w,
    invocations := calls.map fun c => { ctx := c.1, req := c.2.1, handler := c.2.2, pc := PC.start } }

/-- The lock an invocation has obtained from the registry, if it got that far and
has not returned yet. -/
def PC.lock : PC → TryLocker
  | PC.acquiring l => l
  | PC.inHandler l => l
  | PC.releasing l _ => l
  | _ => none

/-- Invocation `n` exists and is between its successful `TryLock` and its `Unlock`. -/
def Config.inCritical (c : Config) (n : Nat) : Bool :=
  match c.invocations[n]? with
  | none => false
  | some t => t.pc.inCritical

/-- What an invocation knows about the world at its program point: the lock it got is
the instance the registry stores under its VolumeId, and between a successful TryLock
and the Unlock that mutex is locked. -/
def Invocation.Good (w : World) (t : Invocation) : Prop :=
  match t.pc with
  | PC.start => True
  | PC.acquiring l =>
    ∃ a, l = some a ∧ GoMap.get w.locker.volIDLocks t.req.VolumeId = some a
  | PC.inHandler l =>
    ∃ a, l = some a ∧ GoMap.get w.locker.volIDLocks t.req.VolumeId = some a ∧
      w.heap[a]? = some (TryMutex.mk true)
  | PC.releasing l _ =>
    ∃ a, l = some a ∧ GoMap.get w.locker.volIDLocks t.req.VolumeId = some a ∧
      w.heap[a]? = some (TryMutex.mk true)
  | PC.done _ => True

/-- Two invocations are never in their critical sections on the same lock. -/
def Invocation.Compat (t u : Invocation) : Prop :=
  t.pc.inCritical = true → u.pc.inCritical = true → t.pc.lock ≠ u.pc.lock

/-- The invariant of the interleaved execution. -/
def Config.Inv (c : Config) : Prop :=
  (∀ (n : Nat) (t : Invocation), c.invocations[n]? = some t → t.Good c.world) ∧
  (∀ (m n : Nat) (t u : Invocation), m ≠ n → c.invocations[m]? = some t →
    c.invocations[n]? = some u → t.Compat u)

/-- Program point of invocation `n`, if there is one. -/
def Config.pc (c : Config) (n : Nat) : Option PC :=
  (c.invocations[n]?).map Invocation.pc

/-- The `VolumeId` of invocation `n`, if there is one. -/
def Config.volumeId (c : Config) (n : Nat) : Option String :=
  (c.invocations[n]?).map fun t => t.req.VolumeId

/-! ## Sample values -/

namespace Sample

/-- A context without incoming metadata. -/
def ctx : Context := { incomingMD := none, values := [] }

/-- A context whose metadata carries request ID `7`. -/
def ctx7 : Context := { incomingMD := some [("request-id", ["7"])], values := [] }

/-- A context whose metadata has an entry without values under the request-ID key. -/
def ctxEmptyID : Context := { incomingMD := some [("request-id", [])], values := [] }

/-- Server info of a stage call. -/
def info : UnaryServerInfo := { FullMethod := "/csi.v1.Node/NodeStageVolume" }

/-- A stage request for volume `k`. -/
def stage (k : String) : NodeStageVolumeRequest :=
  { VolumeId := k, PublishContext := [], StagingTargetPath := "/staging", Secrets := [],
    VolumeContext := [] }

/-- An unstage request for volume `k`. -/
def unstage (k : String) : NodeUnstageVolumeRequest :=
  { VolumeId := k, StagingTargetPath := "/staging" }

/-- A handler that succeeds. -/
def okHandler : UnaryHandler := fun _ _ => Outcome.returned (some "ok") none

/-- A handler that returns an error. -/
def errHandler : UnaryHandler :=
  fun _ _ => Outcome.returned none (some (GoError.status codes.Internal "boom"))

/-- A handler that panics. -/
def panicHandler : UnaryHandler := fun _ _ => Outcome.panicked "boom"

/-- A handler that reports the request ID it finds in its context. -/
def idHandler : UnaryHandler := fun c _ => Outcome.returned (c.Value "request-id") none

/-- The interceptor built by `NewCustomSerialLock`. -/
def icpt : interceptor := { opts := { timeout := 0 } }

/-- A generic serializer that just calls the handler. -/
def passThrough : UnaryServerInterceptor := fun c r _ h w => invoke h c r w

/-- A world in which the lock of `vol-1` is held and the lock of `vol-2` is free. -/
def held1 : World :=
  { heap := [TryMutex.mk true, TryMutex.mk false],
    locker := { volIDLocks := [("vol-1", some 0), ("vol-2", some 1)], volNameLocks := [] },
    log := [] }

/-- A world in which the lock of `vol-1` exists and is free. -/
def free1 : World :=
  { heap := [TryMutex.mk false],
    locker := { volIDLocks := [("vol-1", some 0)], volNameLocks := [] },
    log := [] }

/-- A world in which `vol-1` has a free lock in each namespace. -/
def both : World :=
  { heap := [TryMutex.mk false, TryMutex.mk false],
    locker := { volIDLocks := [("vol-1", some 0)], volNameLocks := [("vol-1", some 1)] },
    log := [] }

end Sample


/-! ## Lemmas: maps, mutexes and the wrapper body -/

theorem GoMap.get_set_self (m : GoMap) (k : String) (v : TryLocker) :
    GoMap.get (GoMap.set m k v) k = v := by
  induction m with
  | nil => simp [GoMap.set, GoMap.get]
  | cons p m ih =>
    obtain ⟨k', v'⟩ := p
    by_cases h : k' = k
    · simp [GoMap.set, GoMap.get, h]
    · simp [GoMap.set, GoMap.get, h, ih]

theorem GoMap.get_set_ne (m : GoMap) (k k2 : String) (v : TryLocker) (hne : k2 ≠ k) :
    GoMap.get (GoMap.set m k v) k2 = GoMap.get m k2 := by
  induction m with
  | nil => simp [GoMap.set, GoMap.get, Ne.symm hne]
  | cons p m ih =>
    obtain ⟨k', v'⟩ := p
    by_cases h : k' = k
    · subst h
      simp [GoMap.set, GoMap.get, Ne.symm hne]
    · by_cases h2 : k' = k2
      · subst h2
        simp [GoMap.set, GoMap.get, h]
      · simp [GoMap.set, GoMap.get, h, h2, ih]


theorem GetLockWithID_present (ctx : Context) (k : String) (w : World) (a : Addr)
    (h : GoMap.get w.locker.volIDLocks k = some a) :
    lockProvider.GetLockWithID ctx k w = ((some a, none), w) := by
  simp [lockProvider.GetLockWithID, h]

theorem GetLockWithID_absent (ctx : Context) (k : String) (w : World)
    (h : GoMap.get w.locker.volIDLocks k = none) :
    lockProvider.GetLockWithID ctx k w =
      ((some w.heap.length, none),
        { heap := w.heap ++ [TryMutex.mk false],
          locker := { w.locker with
            volIDLocks := GoMap.set w.locker.volIDLocks k (some w.heap.length) },
          log := w.log }) := by
  simp [lockProvider.GetLockWithID, h, newTryMutex]

theorem TryMutex.eq_of_locked (m : TryMutex) (b : Bool) (h : m.locked = b) : m = TryMutex.mk b := by
  cases m; simp_all

theorem heap_set_set_self (hp : List TryMutex) (a : Addr) (m : TryMutex)
    (h : hp[a]? = some m) (x : TryMutex) : (hp.set a x).set a m = hp := by
  rw [List.set_set]
  apply List.ext_getElem?
  intro n
  by_cases hn : a = n
  · subst hn
    rw [List.getElem?_set_self (by
      rcases List.getElem?_eq_some_iff.mp h with ⟨hlt, _⟩
      exact hlt)]
    exact h.symm
  · rw [List.getElem?_set_ne hn]

/-- The body shared by the two wrappers, after the registry lookup returned a lock
that is held: the pending error, and one failed `TryLock` in the log. -/
theorem TryLock_held (a : Addr) (t : Int) (w : World)
    (h : w.heap[a]? = some (TryMutex.mk true)) :
    TryLocker.TryLock (some a) t w = (Res.ok false, w.emit (Event.TryLock a t false)) := by
  simp [TryLocker.TryLock, h]

theorem TryLock_free (a : Addr) (t : Int) (w : World)
    (h : w.heap[a]? = some (TryMutex.mk false)) :
    TryLocker.TryLock (some a) t w =
      (Res.ok true,
        { w with heap := w.heap.set a (TryMutex.mk true) }.emit (Event.TryLock a t true)) := by
  simp [TryLocker.TryLock, h]

theorem Unlock_held (a : Addr) (w : World)
    (h : w.heap[a]? = some (TryMutex.mk true)) :
    TryLocker.Unlock (some a) w =
      (Res.ok (), { w with heap := w.heap.set a (TryMutex.mk false) }.emit (Event.Unlock a)) := by
  simp [TryLocker.Unlock, h]

theorem idHeld_iff (w : World) (k : String) :
    w.idHeld k = true ↔
      ∃ a, GoMap.get w.locker.volIDLocks k = some a ∧ w.heap[a]? = some (TryMutex.mk true) := by
  unfold World.idHeld
  cases h : GoMap.get w.locker.volIDLocks k with
  | none => simp
  | some a =>
    cases h2 : w.heap[a]? with
    | none => simp [h2]
    | some m =>
      cases m with
      | mk b => cases b <;> simp [h2]

theorem idFree_iff (w : World) (k : String) :
    w.idFree k = true ↔
      GoMap.get w.locker.volIDLocks k = none ∨
      ∃ a, GoMap.get w.locker.volIDLocks k = some a ∧ w.heap[a]? = some (TryMutex.mk false) := by
  unfold World.idFree
  cases h : GoMap.get w.locker.volIDLocks k with
  | none => simp
  | some a =>
    cases h2 : w.heap[a]? with
    | none => simp [h2]
    | some m =>
      cases m with
      | mk b => cases b <;> simp [h2]

theorem stage_pending (i : interceptor) (ctx : Context) (req : NodeStageVolumeRequest)
    (info : UnaryServerInfo) (handler : UnaryHandler) (w : World) (a : Addr)
    (hk : GoMap.get w.locker.volIDLocks req.VolumeId = some a)
    (hh : w.heap[a]? = some (TryMutex.mk true)) :
    i.nodeStageVolume ctx req info handler w =
      (Outcome.returned none (some (GoError.status codes.Aborted "pending")),
        w.emit (Event.TryLock a i.opts.timeout false)) := by
  simp [interceptor.nodeStageVolume, GetLockWithID_present ctx _ w a hk, TryLock_held a _ w hh,
    status.Error, pending]

theorem stage_run_present (i : interceptor) (ctx : Context) (req : NodeStageVolumeRequest)
    (info : UnaryServerInfo) (handler : UnaryHandler) (w : World) (a : Addr)
    (hk : GoMap.get w.locker.volIDLocks req.VolumeId = some a)
    (hh : w.heap[a]? = some (TryMutex.mk false)) :
    i.nodeStageVolume ctx req info handler w =
      (handler ctx (Request.NodeStageVolume req),
        { w with log := w.log ++
            [Event.TryLock a i.opts.timeout true,
             Event.Handler ctx (Request.NodeStageVolume req) (w.heap.set a (TryMutex.mk true)),
             Event.Unlock a] }) := by
  have hlt : a < w.heap.length := (List.getElem?_eq_some_iff.mp hh).1
  have h3 : ((w.heap.set a (TryMutex.mk true))[a]?) = some (TryMutex.mk true) := by
    rw [List.getElem?_set_self hlt]
  simp [interceptor.nodeStageVolume, GetLockWithID_present ctx _ w a hk, TryLock_free a _ w hh,
    invoke, World.emit, TryLocker.Unlock, h3, heap_set_set_self w.heap a _ hh]

theorem stage_run_absent (i : interceptor) (ctx : Context) (req : NodeStageVolumeRequest)
    (info : UnaryServerInfo) (handler : UnaryHandler) (w : World)
    (hk : GoMap.get w.locker.volIDLocks req.VolumeId = none) :
    i.nodeStageVolume ctx req info handler w =
      (handler ctx (Request.NodeStageVolume req),
        { heap := w.heap ++ [TryMutex.mk false],
          locker := { w.locker with
            volIDLocks := GoMap.set w.locker.volIDLocks req.VolumeId (some w.heap.length) },
          log := w.log ++
            [Event.TryLock w.heap.length i.opts.timeout true,
             Event.Handler ctx (Request.NodeStageVolume req) (w.heap ++ [TryMutex.mk true]),
             Event.Unlock w.heap.length] }) := by
  simp [interceptor.nodeStageVolume, GetLockWithID_absent ctx _ w hk, TryLocker.TryLock,
    invoke, World.emit, TryLocker.Unlock]

theorem unstage_pending (i : interceptor) (ctx : Context) (req : NodeUnstageVolumeRequest)
    (info : UnaryServerInfo) (handler : UnaryHandler) (w : World) (a : Addr)
    (hk : GoMap.get w.locker.volIDLocks req.VolumeId = some a)
    (hh : w.heap[a]? = some (TryMutex.mk true)) :
    i.nodeUnstageVolume ctx req info handler w =
      (Outcome.returned none (some (GoError.status codes.Aborted "pending")),
        w.emit (Event.TryLock a i.opts.timeout false)) := by
  simp [interceptor.nodeUnstageVolume, GetLockWithID_present ctx _ w a hk, TryLock_held a _ w hh,
    status.Error, pending]

theorem unstage_run_present (i : interceptor) (ctx : Context) (req : NodeUnstageVolumeRequest)
    (info : UnaryServerInfo) (handler : UnaryHandler) (w : World) (a : Addr)
    (hk : GoMap.get w.locker.volIDLocks req.VolumeId = some a)
    (hh : w.heap[a]? = some (TryMutex.mk false)) :
    i.nodeUnstageVolume ctx req info handler w =
      (handler ctx (Request.NodeUnstageVolume req),
        { w with log := w.log ++
            [Event.TryLock a i.opts.timeout true,
             Event.Handler ctx (Request.NodeUnstageVolume req) (w.heap.set a (TryMutex.mk true)),
             Event.Unlock a] }) := by
  have hlt : a < w.heap.length := (List.getElem?_eq_some_iff.mp hh).1
  have h3 : ((w.heap.set a (TryMutex.mk true))[a]?) = some (TryMutex.mk true) := by
    rw [List.getElem?_set_self hlt]
  simp [interceptor.nodeUnstageVolume, GetLockWithID_present ctx _ w a hk, TryLock_free a _ w hh,
    invoke, World.emit, TryLocker.Unlock, h3, heap_set_set_self w.heap a _ hh]

theorem unstage_run_absent (i : interceptor) (ctx : Context) (req : NodeUnstageVolumeRequest)
    (info : UnaryServerInfo) (handler : UnaryHandler) (w : World)
    (hk : GoMap.get w.locker.volIDLocks req.VolumeId = none) :
    i.nodeUnstageVolume ctx req info handler w =
      (handler ctx (Request.NodeUnstageVolume req),
        { heap := w.heap ++ [TryMutex.mk false],
          locker := { w.locker with
            volIDLocks := GoMap.set w.locker.volIDLocks req.VolumeId (some w.heap.length) },
          log := w.log ++
            [Event.TryLock w.heap.length i.opts.timeout true,
             Event.Handler ctx (Request.NodeUnstageVolume req) (w.heap ++ [TryMutex.mk true]),
             Event.Unlock w.heap.length] }) := by
  simp [interceptor.nodeUnstageVolume, GetLockWithID_absent ctx _ w hk, TryLocker.TryLock,
    invoke, World.emit, TryLocker.Unlock]

/-- What the registry lookup of an ID key does. -/
theorem GetLockWithID_cases (ctx : Context) (k : String) (w : World) :
    (∃ a, GoMap.get w.locker.volIDLocks k = some a ∧
      lockProvider.GetLockWithID ctx k w = ((some a, none), w)) ∨
    (GoMap.get w.locker.volIDLocks k = none ∧
      lockProvider.GetLockWithID ctx k w =
        ((some w.heap.length, none),
          { heap := w.heap ++ [TryMutex.mk false],
            locker := { w.locker with
              volIDLocks := GoMap.set w.locker.volIDLocks k (some w.heap.length) },
            log := w.log })) := by
  cases h : GoMap.get w.locker.volIDLocks k with
  | none => exact Or.inr ⟨rfl, GetLockWithID_absent ctx k w h⟩
  | some a => exact Or.inl ⟨a, rfl, GetLockWithID_present ctx k w a h⟩

/-- The world a wrapper call leaves behind when it ran its handler under the lock at
address `a`: the world `g` after the registry lookup, with three more log entries. -/
theorem newEvents_append (w : World) (hp : List TryMutex) (lk : lockProvider) (es : List Event) :
    w.newEvents { heap := hp, locker := lk, log := w.log ++ es } = es := by
  simp [World.newEvents]

theorem stage_free (i : interceptor) (ctx : Context) (req : NodeStageVolumeRequest)
    (info : UnaryServerInfo) (handler : UnaryHandler) (w : World)
    (hfree : w.idFree req.VolumeId = true) :
    ∃ a, (lockProvider.GetLockWithID ctx req.VolumeId w).1 = (some a, none) ∧
      (lockProvider.GetLockWithID ctx req.VolumeId w).2.heap[a]? = some (TryMutex.mk false) ∧
      i.nodeStageVolume ctx req info handler w =
        (handler ctx (Request.NodeStageVolume req),
          { heap := (lockProvider.GetLockWithID ctx req.VolumeId w).2.heap,
            locker := (lockProvider.GetLockWithID ctx req.VolumeId w).2.locker,
            log := w.log ++
              [Event.TryLock a i.opts.timeout true,
               Event.Handler ctx (Request.NodeStageVolume req)
                 ((lockProvider.GetLockWithID ctx req.VolumeId w).2.heap.set a (TryMutex.mk true)),
               Event.Unlock a] }) := by
  rcases (idFree_iff w req.VolumeId).mp hfree with hk | ⟨a, hk, hh⟩
  · refine ⟨w.heap.length, ?_, ?_, ?_⟩
    · rw [GetLockWithID_absent ctx _ w hk]
    · rw [GetLockWithID_absent ctx _ w hk]; simp
    · rw [stage_run_absent i ctx req info handler w hk, GetLockWithID_absent ctx _ w hk]
      simp
  · refine ⟨a, ?_, ?_, ?_⟩
    · rw [GetLockWithID_present ctx _ w a hk]
    · rw [GetLockWithID_present ctx _ w a hk]; exact hh
    · rw [stage_run_present i ctx req info handler w a hk hh, GetLockWithID_present ctx _ w a hk]

theorem unstage_free (i : interceptor) (ctx : Context) (req : NodeUnstageVolumeRequest)
    (info : UnaryServerInfo) (handler : UnaryHandler) (w : World)
    (hfree : w.idFree req.VolumeId = true) :
    ∃ a, (lockProvider.GetLockWithID ctx req.VolumeId w).1 = (some a, none) ∧
      (lockProvider.GetLockWithID ctx req.VolumeId w).2.heap[a]? = some (TryMutex.mk false) ∧
      i.nodeUnstageVolume ctx req info handler w =
        (handler ctx (Request.NodeUnstageVolume req),
          { heap := (lockProvider.GetLockWithID ctx req.VolumeId w).2.heap,
            locker := (lockProvider.GetLockWithID ctx req.VolumeId w).2.locker,
            log := w.log ++
              [Event.TryLock a i.opts.timeout true,
               Event.Handler ctx (Request.NodeUnstageVolume req)
                 ((lockProvider.GetLockWithID ctx req.VolumeId w).2.heap.set a (TryMutex.mk true)),
               Event.Unlock a] }) := by
  rcases (idFree_iff w req.VolumeId).mp hfree with hk | ⟨a, hk, hh⟩
  · refine ⟨w.heap.length, ?_, ?_, ?_⟩
    · rw [GetLockWithID_absent ctx _ w hk]
    · rw [GetLockWithID_absent ctx _ w hk]; simp
    · rw [unstage_run_absent i ctx req info handler w hk, GetLockWithID_absent ctx _ w hk]
      simp
  · refine ⟨a, ?_, ?_, ?_⟩
    · rw [GetLockWithID_present ctx _ w a hk]
    · rw [GetLockWithID_present ctx _ w a hk]; exact hh
    · rw [unstage_run_present i ctx req info handler w a hk hh, GetLockWithID_present ctx _ w a hk]

/-- The lock returned by the registry lookup is the one stored under the key
afterwards. -/
theorem GetLockWithID_stored (ctx : Context) (k : String) (w : World) (a : Addr)
    (h : (lockProvider.GetLockWithID ctx k w).1 = (some a, none)) :
    GoMap.get (lockProvider.GetLockWithID ctx k w).2.locker.volIDLocks k = some a := by
  rcases GetLockWithID_cases ctx k w with ⟨b, hb, he⟩ | ⟨hb, he⟩
  · rw [he] at h ⊢
    simp at h
    subst h
    exact hb
  · rw [he] at h ⊢
    simp at h
    subst h
    simp [GoMap.get_set_self]

/-- Consequences of having run the handler under the lock: the postconditions of the
wrapper in a world whose lock for `k` was free. -/
theorem ran_under_lock (t : Int) (ctx : Context) (R : Request) (handler : UnaryHandler)
    (w : World) (k : String) (a : Addr) (r : Outcome × World)
    (hg : (lockProvider.GetLockWithID ctx k w).1 = (some a, none))
    (hh : (lockProvider.GetLockWithID ctx k w).2.heap[a]? = some (TryMutex.mk false))
    (hr : r = (handler ctx R,
          { heap := (lockProvider.GetLockWithID ctx k w).2.heap,
            locker := (lockProvider.GetLockWithID ctx k w).2.locker,
            log := w.log ++
              [Event.TryLock a t true,
               Event.Handler ctx R
                 ((lockProvider.GetLockWithID ctx k w).2.heap.set a (TryMutex.mk true)),
               Event.Unlock a] })) :
    PassedThrough ctx R handler w r ∧ LockedAround t ctx R k w r ∧
      r.2.tryLockID k = Res.ok true := by
  have hst := GetLockWithID_stored ctx k w a hg
  have hlt : a < (lockProvider.GetLockWithID ctx k w).2.heap.length :=
    (List.getElem?_eq_some_iff.mp hh).1
  subst hr
  refine ⟨⟨rfl, ?_⟩, ⟨a, _, hst, newEvents_append _ _ _ _, ?_, ?_, ?_⟩, ?_⟩
  · rw [newEvents_append]; simp [handlerArgs]
  · rw [List.getElem?_set_self hlt]
  · rw [newEvents_append]; simp [unlockCalls]
  · apply (idFree_iff _ _).mpr
    exact Or.inr ⟨a, hst, hh⟩
  · simp only [World.tryLockID]
    rw [hst]
    simp [TryLocker.TryLock, hh]

theorem pending_post (w : World) (k : String) (a : Addr) (t : Int)
    (hk : GoMap.get w.locker.volIDLocks k = some a)
    (hh : w.heap[a]? = some (TryMutex.mk true)) :
    PendingAbort w k
      (Outcome.returned none (some (GoError.status codes.Aborted "pending")),
        w.emit (Event.TryLock a t false)) := by
  refine ⟨rfl, ?_, ?_, rfl, rfl, ?_⟩
  · simp [World.newEvents, World.emit, handlerArgs]
  · intro b; simp [World.newEvents, World.emit, unlockCalls]
  · exact (idHeld_iff _ _).mpr ⟨a, hk, hh⟩

/-- C1: if the ID-namespace lock of the request's VolumeId is held on entry,
nodeStageVolume and nodeUnstageVolume return a nil response with the error
Aborted "pending", never invoke the handler, unlock nothing, and leave the registry
and every mutex as they were, so the lock stays held. -/
theorem C1_pending_when_held (i : interceptor) (ctx : Context) (info : UnaryServerInfo)
    (handler : UnaryHandler) (w : World) (k : String) (hheld : w.idHeld k = true) :
    (∀ req : NodeStageVolumeRequest, req.VolumeId = k →
      PendingAbort w k (i.nodeStageVolume ctx req info handler w)) ∧
    (∀ req : NodeUnstageVolumeRequest, req.VolumeId = k →
      PendingAbort w k (i.nodeUnstageVolume ctx req info handler w)) := by
  obtain ⟨a, hk, hh⟩ := (idHeld_iff w k).mp hheld
  constructor
  · intro req hreq
    subst hreq
    rw [stage_pending i ctx req info handler w a hk hh]
    exact pending_post w _ a _ hk hh
  · intro req hreq
    subst hreq
    rw [unstage_pending i ctx req info handler w a hk hh]
    exact pending_post w _ a _ hk hh

/-- C1 at a concrete input: `vol-1` is held, a stage and an unstage call abort. -/
theorem C1_pending_when_held_witness :
    Sample.held1.idHeld "vol-1" = true ∧
    PendingAbort Sample.held1 "vol-1"
      (Sample.icpt.nodeStageVolume Sample.ctx (Sample.stage "vol-1") Sample.info
        Sample.okHandler Sample.held1) ∧
    PendingAbort Sample.held1 "vol-1"
      (Sample.icpt.nodeUnstageVolume Sample.ctx (Sample.unstage "vol-1") Sample.info
        Sample.okHandler Sample.held1) :=
  have h := C1_pending_when_held Sample.icpt Sample.ctx Sample.info Sample.okHandler
    Sample.held1 "vol-1" (by decide)
  ⟨by decide, h.1 _ rfl, h.2 _ rfl⟩

/-- C2: if the ID-namespace lock of the request's VolumeId is free on entry, the
wrapper invokes the handler exactly once, on the context and request it received, and
returns the handler's outcome unmodified, whatever that outcome is. -/
theorem C2_handler_passed_through (i : interceptor) (ctx : Context) (info : UnaryServerInfo)
    (handler : UnaryHandler) (w : World) (k : String) (hfree : w.idFree k = true) :
    (∀ req : NodeStageVolumeRequest, req.VolumeId = k →
      PassedThrough ctx (Request.NodeStageVolume req) handler w
        (i.nodeStageVolume ctx req info handler w)) ∧
    (∀ req : NodeUnstageVolumeRequest, req.VolumeId = k →
      PassedThrough ctx (Request.NodeUnstageVolume req) handler w
        (i.nodeUnstageVolume ctx req info handler w)) := by
  constructor
  · intro req hreq
    subst hreq
    obtain ⟨a, hg, hh, hr⟩ := stage_free i ctx req info handler w hfree
    exact (ran_under_lock _ ctx _ handler w _ a _ hg hh hr).1
  · intro req hreq
    subst hreq
    obtain ⟨a, hg, hh, hr⟩ := unstage_free i ctx req info handler w hfree
    exact (ran_under_lock _ ctx _ handler w _ a _ hg hh hr).1

/-- C2 at a concrete input: a failing handler behind a lock that exists and is free. -/
theorem C2_handler_passed_through_witness :
    Sample.free1.idFree "vol-1" = true ∧
    PassedThrough Sample.ctx (Request.NodeStageVolume (Sample.stage "vol-1")) Sample.errHandler
      Sample.free1
      (Sample.icpt.nodeStageVolume Sample.ctx (Sample.stage "vol-1") Sample.info
        Sample.errHandler Sample.free1) ∧
    (Sample.icpt.nodeStageVolume Sample.ctx (Sample.stage "vol-1") Sample.info
        Sample.errHandler Sample.free1).1 =
      Outcome.returned none (some (GoError.status codes.Internal "boom")) :=
  ⟨by decide,
    (C2_handler_passed_through Sample.icpt Sample.ctx Sample.info Sample.errHandler
      Sample.free1 "vol-1" (by decide)).1 _ rfl,
    by decide⟩

/-- C3: when the try-lock succeeds (the lock of the VolumeId is free on entry), the
wrapper takes the lock, calls the handler in a heap where that mutex is locked, and
unlocks it exactly once after the handler ended, whether the handler returned a
response, returned an error or panicked; the lock is free afterwards, and a following
stage or unstage call for the same VolumeId reaches its handler. -/
theorem C3_lock_released_on_every_path (i : interceptor) (ctx : Context)
    (info : UnaryServerInfo) (handler : UnaryHandler) (w : World) (k : String)
    (hfree : w.idFree k = true) :
    (∀ req : NodeStageVolumeRequest, req.VolumeId = k →
      (i.nodeStageVolume ctx req info handler w).1 = handler ctx (Request.NodeStageVolume req) ∧
      LockedAround i.opts.timeout ctx (Request.NodeStageVolume req) k w
        (i.nodeStageVolume ctx req info handler w) ∧
      (∀ (j : interceptor) (ctx2 : Context) (info2 : UnaryServerInfo) (h2 : UnaryHandler),
        (∀ req2 : NodeStageVolumeRequest, req2.VolumeId = k →
          PassedThrough ctx2 (Request.NodeStageVolume req2) h2
            (i.nodeStageVolume ctx req info handler w).2
            (j.nodeStageVolume ctx2 req2 info2 h2 (i.nodeStageVolume ctx req info handler w).2)) ∧
        (∀ req2 : NodeUnstageVolumeRequest, req2.VolumeId = k →
          PassedThrough ctx2 (Request.NodeUnstageVolume req2) h2
            (i.nodeStageVolume ctx req info handler w).2
            (j.nodeUnstageVolume ctx2 req2 info2 h2
              (i.nodeStageVolume ctx req info handler w).2)))) ∧
    (∀ req : NodeUnstageVolumeRequest, req.VolumeId = k →
      (i.nodeUnstageVolume ctx req info handler w).1 =
        handler ctx (Request.NodeUnstageVolume req) ∧
      LockedAround i.opts.timeout ctx (Request.NodeUnstageVolume req) k w
        (i.nodeUnstageVolume ctx req info handler w) ∧
      (∀ (j : interceptor) (ctx2 : Context) (info2 : UnaryServerInfo) (h2 : UnaryHandler),
        (∀ req2 : NodeStageVolumeRequest, req2.VolumeId = k →
          PassedThrough ctx2 (Request.NodeStageVolume req2) h2
            (i.nodeUnstageVolume ctx req info handler w).2
            (j.nodeStageVolume ctx2 req2 info2 h2
              (i.nodeUnstageVolume ctx req info handler w).2)) ∧
        (∀ req2 : NodeUnstageVolumeRequest, req2.VolumeId = k →
          PassedThrough ctx2 (Request.NodeUnstageVolume req2) h2
            (i.nodeUnstageVolume ctx req info handler w).2
            (j.nodeUnstageVolume ctx2 req2 info2 h2
              (i.nodeUnstageVolume ctx req info handler w).2)))) := by
  have next : ∀ (w1 : World), w1.idFree k = true →
      ∀ (j : interceptor) (ctx2 : Context) (info2 : UnaryServerInfo) (h2 : UnaryHandler),
        (∀ req2 : NodeStageVolumeRequest, req2.VolumeId = k →
          PassedThrough ctx2 (Request.NodeStageVolume req2) h2 w1
            (j.nodeStageVolume ctx2 req2 info2 h2 w1)) ∧
        (∀ req2 : NodeUnstageVolumeRequest, req2.VolumeId = k →
          PassedThrough ctx2 (Request.NodeUnstageVolume req2) h2 w1
            (j.nodeUnstageVolume ctx2 req2 info2 h2 w1)) := by
    intro w1 hw1 j ctx2 info2 h2
    constructor
    · intro req2 hreq2
      subst hreq2
      obtain ⟨a, hg, hh, hr⟩ := stage_free j ctx2 req2 info2 h2 w1 hw1
      exact (ran_under_lock _ ctx2 _ h2 w1 _ a _ hg hh hr).1
    · intro req2 hreq2
      subst hreq2
      obtain ⟨a, hg, hh, hr⟩ := unstage_free j ctx2 req2 info2 h2 w1 hw1
      exact (ran_under_lock _ ctx2 _ h2 w1 _ a _ hg hh hr).1
  constructor
  · intro req hreq
    subst hreq
    obtain ⟨a, hg, hh, hr⟩ := stage_free i ctx req info handler w hfree
    obtain ⟨hpass, hlock, -⟩ := ran_under_lock _ ctx _ handler w _ a _ hg hh hr
    obtain ⟨_, _, _, _, _, _, hf⟩ := hlock
    exact ⟨hpass.1, ran_under_lock _ ctx _ handler w _ a _ hg hh hr |>.2.1, next _ hf⟩
  · intro req hreq
    subst hreq
    obtain ⟨a, hg, hh, hr⟩ := unstage_free i ctx req info handler w hfree
    obtain ⟨hpass, hlock, -⟩ := ran_under_lock _ ctx _ handler w _ a _ hg hh hr
    obtain ⟨_, _, _, _, _, _, hf⟩ := hlock
    exact ⟨hpass.1, ran_under_lock _ ctx _ handler w _ a _ hg hh hr |>.2.1, next _ hf⟩

/-- C3 at a concrete input: the handler panics behind the free lock of `vol-1`; the
panic is passed on, the lock was released, and a following unstage call succeeds. -/
theorem C3_lock_released_on_every_path_witness :
    Sample.free1.idFree "vol-1" = true ∧
    (Sample.icpt.nodeStageVolume Sample.ctx (Sample.stage "vol-1") Sample.info
      Sample.panicHandler Sample.free1).1 = Outcome.panicked "boom" ∧
    LockedAround 0 Sample.ctx (Request.NodeStageVolume (Sample.stage "vol-1")) "vol-1"
      Sample.free1
      (Sample.icpt.nodeStageVolume Sample.ctx (Sample.stage "vol-1") Sample.info
        Sample.panicHandler Sample.free1) ∧
    (Sample.icpt.nodeUnstageVolume Sample.ctx (Sample.unstage "vol-1") Sample.info
      Sample.okHandler
      (Sample.icpt.nodeStageVolume Sample.ctx (Sample.stage "vol-1") Sample.info
        Sample.panicHandler Sample.free1).2).1 = Outcome.returned (some "ok") none :=
  have h := (C3_lock_released_on_every_path Sample.icpt Sample.ctx Sample.info
    Sample.panicHandler Sample.free1 "vol-1" (by decide)).1 (Sample.stage "vol-1") rfl
  ⟨by decide, h.1, h.2.1,
    ((h.2.2 Sample.icpt Sample.ctx Sample.info Sample.okHandler).2
      (Sample.unstage "vol-1") rfl).1⟩

/-- C4 fails as stated: `vol-1` is held, the stage call ends with the pending abort,
and an immediately following `TryLock(0)` on the lock of `vol-1` returns false. -/
theorem C4_counterexample :
    (Sample.icpt.nodeStageVolume Sample.ctx (Sample.stage "vol-1") Sample.info
      Sample.okHandler Sample.held1).1 =
      Outcome.returned none (some (GoError.status codes.Aborted "pending")) ∧
    (Sample.icpt.nodeStageVolume Sample.ctx (Sample.stage "vol-1") Sample.info
      Sample.okHandler Sample.held1).2.tryLockID "vol-1" = Res.ok false := by
  decide

theorem pending_tryLock (w : World) (k : String) (r : Outcome × World)
    (h : PendingAbort w k r) : r.2.tryLockID k = Res.ok false := by
  obtain ⟨a, hk, hh⟩ := (idHeld_iff _ _).mp h.2.2.2.2.2
  simp [World.tryLockID, hk, TryLocker.TryLock, hh]

/-- C4 (amended): after a wrapper call that acquired the lock, whatever the handler's
outcome, the lock of the VolumeId is free: an immediately following `TryLock(0)`
returns true.  After a call that ended with the pending abort the lock is still
held by the invocation that owns it: `TryLock(0)` returns false. -/
theorem C4_lock_free_after_acquired_call (i : interceptor) (ctx : Context)
    (info : UnaryServerInfo) (handler : UnaryHandler) (w : World) (k : String) :
    (w.idFree k = true →
      (∀ req : NodeStageVolumeRequest, req.VolumeId = k →
        (i.nodeStageVolume ctx req info handler w).2.tryLockID k = Res.ok true) ∧
      (∀ req : NodeUnstageVolumeRequest, req.VolumeId = k →
        (i.nodeUnstageVolume ctx req info handler w).2.tryLockID k = Res.ok true)) ∧
    (w.idHeld k = true →
      (∀ req : NodeStageVolumeRequest, req.VolumeId = k →
        (i.nodeStageVolume ctx req info handler w).1 =
          Outcome.returned none (some (GoError.status codes.Aborted "pending")) ∧
        (i.nodeStageVolume ctx req info handler w).2.tryLockID k = Res.ok false) ∧
      (∀ req : NodeUnstageVolumeRequest, req.VolumeId = k →
        (i.nodeUnstageVolume ctx req info handler w).1 =
          Outcome.returned none (some (GoError.status codes.Aborted "pending")) ∧
        (i.nodeUnstageVolume ctx req info handler w).2.tryLockID k = Res.ok false)) := by
  constructor
  · intro hfree
    constructor
    · intro req hreq
      subst hreq
      obtain ⟨a, hg, hh, hr⟩ := stage_free i ctx req info handler w hfree
      exact (ran_under_lock _ ctx _ handler w _ a _ hg hh hr).2.2
    · intro req hreq
      subst hreq
      obtain ⟨a, hg, hh, hr⟩ := unstage_free i ctx req info handler w hfree
      exact (ran_under_lock _ ctx _ handler w _ a _ hg hh hr).2.2
  · intro hheld
    obtain ⟨a, hk, hh⟩ := (idHeld_iff w k).mp hheld
    constructor
    · intro req hreq
      subst hreq
      have hp : PendingAbort w req.VolumeId (i.nodeStageVolume ctx req info handler w) := by
        rw [stage_pending i ctx req info handler w a hk hh]
        exact pending_post w _ a _ hk hh
      exact ⟨hp.1, pending_tryLock _ _ _ hp⟩
    · intro req hreq
      subst hreq
      have hp : PendingAbort w req.VolumeId (i.nodeUnstageVolume ctx req info handler w) := by
        rw [unstage_pending i ctx req info handler w a hk hh]
        exact pending_post w _ a _ hk hh
      exact ⟨hp.1, pending_tryLock _ _ _ hp⟩

/-- C4 (amended) at concrete inputs: a failing handler behind the free lock of `vol-2`
leaves it free; the pending abort on `vol-1` leaves it held. -/
theorem C4_lock_free_after_acquired_call_witness :
    (Sample.held1.idFree "vol-2" = true ∧
      (Sample.icpt.nodeStageVolume Sample.ctx (Sample.stage "vol-2") Sample.info
        Sample.errHandler Sample.held1).2.tryLockID "vol-2" = Res.ok true) ∧
    (Sample.held1.idHeld "vol-1" = true ∧
      (Sample.icpt.nodeUnstageVolume Sample.ctx (Sample.unstage "vol-1") Sample.info
        Sample.errHandler Sample.held1).2.tryLockID "vol-1" = Res.ok false) :=
  ⟨⟨by decide,
    ((C4_lock_free_after_acquired_call Sample.icpt Sample.ctx Sample.info Sample.errHandler
      Sample.held1 "vol-2").1 (by decide)).1 _ rfl⟩,
   ⟨by decide,
    (((C4_lock_free_after_acquired_call Sample.icpt Sample.ctx Sample.info Sample.errHandler
      Sample.held1 "vol-1").2 (by decide)).2 _ rfl).2⟩⟩

theorem GoMap.get_eq_none_of_not_mem (m : GoMap) (k : String) (h : k ∉ GoMap.keys m) :
    GoMap.get m k = none := by
  induction m with
  | nil => rfl
  | cons p m ih =>
    obtain ⟨k', v'⟩ := p
    simp [GoMap.keys] at h
    have h1 : ¬ k' = k := fun e => h.1 e.symm
    simp only [GoMap.get, h1, if_false]
    apply ih
    simp [GoMap.keys]
    exact h.2

theorem GoMap.get_mem_vals (m : GoMap) (k : String) (h : k ∈ GoMap.keys m) :
    GoMap.get m k ∈ GoMap.vals m := by
  induction m with
  | nil => simp [GoMap.keys] at h
  | cons p m ih =>
    obtain ⟨k', v'⟩ := p
    by_cases h1 : k' = k
    · simp [GoMap.get, h1, GoMap.vals]
    · simp only [GoMap.get, h1, if_false]
      have : k ∈ GoMap.keys m := by
        simp [GoMap.keys] at h ⊢
        rcases h with h | h
        · exact absurd h.symm h1
        · exact h
      have := ih this
      simp [GoMap.vals] at this ⊢
      exact Or.inr this

theorem GoMap.set_of_not_mem (m : GoMap) (k : String) (v : TryLocker) (h : k ∉ GoMap.keys m) :
    GoMap.set m k v = m ++ [(k, v)] := by
  induction m with
  | nil => rfl
  | cons p m ih =>
    obtain ⟨k', v'⟩ := p
    simp [GoMap.keys] at h
    have h1 : ¬ k' = k := fun e => h.1 e.symm
    simp only [GoMap.set, h1, if_false, List.cons_append]
    rw [ih]
    simp [GoMap.keys]
    exact h.2

theorem validLocker_iff (n : Nat) (v : TryLocker) :
    validLocker n v = true ↔ ∃ a, v = some a ∧ a < n := by
  cases v with
  | none => simp [validLocker]
  | some a => simp [validLocker]

/-- In a well-formed world a key whose lookup gives nil is not in the map. -/
theorem not_mem_keys_of_get_none (m : GoMap) (n : Nat) (k : String)
    (hv : ∀ v ∈ GoMap.vals m, validLocker n v = true) (h : GoMap.get m k = none) :
    k ∉ GoMap.keys m := by
  intro hk
  have := hv _ (GoMap.get_mem_vals m k hk)
  rw [h] at this
  simp [validLocker] at this

theorem WF_GetLockWithID (ctx : Context) (k : String) (w : World) (h : w.WF) :
    (lockProvider.GetLockWithID ctx k w).2.WF := by
  rcases GetLockWithID_cases ctx k w with ⟨b, hb, he⟩ | ⟨hb, he⟩
  · rw [he]; exact h
  · rw [he]
    obtain ⟨h1, h2, h3, h4⟩ := h
    have hv : ∀ v ∈ GoMap.vals w.locker.volIDLocks, validLocker w.heap.length v = true :=
      fun v hv => h4 v (List.mem_append_left _ hv)
    have hnk := not_mem_keys_of_get_none _ _ k hv hb
    have hfresh : (some w.heap.length : TryLocker) ∉
        GoMap.vals w.locker.volIDLocks ++ GoMap.vals w.locker.volNameLocks := by
      intro hm
      have := h4 _ hm
      simp [validLocker] at this
    simp only [World.WF, GoMap.set_of_not_mem _ _ _ hnk]
    refine ⟨?_, h2, ?_, ?_⟩
    · simp only [GoMap.keys, List.map_append, List.map_cons, List.map_nil]
      rw [List.nodup_append]
      refine ⟨h1, by simp, ?_⟩
      intro x hx hx2
      simp at hx2
      subst hx2
      exact hnk hx
    · simp only [GoMap.vals, List.map_append, List.map_cons, List.map_nil] at h3 hfresh ⊢
      have hperm : List.Perm
          (List.map Prod.snd w.locker.volIDLocks ++ [some w.heap.length] ++
            List.map Prod.snd w.locker.volNameLocks)
          (some w.heap.length ::
            (List.map Prod.snd w.locker.volIDLocks ++
              List.map Prod.snd w.locker.volNameLocks)) := by
        rw [List.append_assoc]
        exact List.perm_middle
      rw [hperm.nodup_iff, List.nodup_cons]
      exact ⟨hfresh, h3⟩
    · intro v hv2
      simp only [GoMap.vals, List.map_append, List.map_cons, List.map_nil, List.mem_append,
        List.mem_singleton, List.length_append, List.length_singleton] at hv2 ⊢
      have hmono : ∀ v, validLocker w.heap.length v = true →
          validLocker (w.heap.length + 1) v = true := by
        intro v hv3
        obtain ⟨a, rfl, ha⟩ := (validLocker_iff _ _).mp hv3
        simp only [validLocker, decide_eq_true_eq]
        exact Nat.lt_succ_of_lt ha
      rcases hv2 with (hv2 | hv2) | hv2
      · exact hmono v (h4 v (List.mem_append_left _ hv2))
      · subst hv2; simp [validLocker]
      · exact hmono v (h4 v (List.mem_append_right _ hv2))

theorem GetLockWithName_present (ctx : Context) (k : String) (w : World) (a : Addr)
    (h : GoMap.get w.locker.volNameLocks k = some a) :
    lockProvider.GetLockWithName ctx k w = ((some a, none), w) := by
  simp [lockProvider.GetLockWithName, h]

theorem GetLockWithName_absent (ctx : Context) (k : String) (w : World)
    (h : GoMap.get w.locker.volNameLocks k = none) :
    lockProvider.GetLockWithName ctx k w =
      ((some w.heap.length, none),
        { heap := w.heap ++ [TryMutex.mk false],
          locker := { w.locker with
            volNameLocks := GoMap.set w.locker.volNameLocks k (some w.heap.length) },
          log := w.log }) := by
  simp [lockProvider.GetLockWithName, h, newTryMutex]

/-- What the registry lookup of a name key does. -/
theorem GetLockWithName_cases (ctx : Context) (k : String) (w : World) :
    (∃ a, GoMap.get w.locker.volNameLocks k = some a ∧
      lockProvider.GetLockWithName ctx k w = ((some a, none), w)) ∨
    (GoMap.get w.locker.volNameLocks k = none ∧
      lockProvider.GetLockWithName ctx k w =
        ((some w.heap.length, none),
          { heap := w.heap ++ [TryMutex.mk false],
            locker := { w.locker with
              volNameLocks := GoMap.set w.locker.volNameLocks k (some w.heap.length) },
            log := w.log })) := by
  cases h : GoMap.get w.locker.volNameLocks k with
  | none => exact Or.inr ⟨rfl, GetLockWithName_absent ctx k w h⟩
  | some a => exact Or.inl ⟨a, rfl, GetLockWithName_present ctx k w a h⟩

theorem WF_GetLockWithName (ctx : Context) (k : String) (w : World) (h : w.WF) :
    (lockProvider.GetLockWithName ctx k w).2.WF := by
  rcases GetLockWithName_cases ctx k w with ⟨b, hb, he⟩ | ⟨hb, he⟩
  · rw [he]; exact h
  · rw [he]
    obtain ⟨h1, h2, h3, h4⟩ := h
    have hv : ∀ v ∈ GoMap.vals w.locker.volNameLocks, validLocker w.heap.length v = true :=
      fun v hv => h4 v (List.mem_append_right _ hv)
    have hnk := not_mem_keys_of_get_none _ _ k hv hb
    have hfresh : (some w.heap.length : TryLocker) ∉
        GoMap.vals w.locker.volIDLocks ++ GoMap.vals w.locker.volNameLocks := by
      intro hm
      have := h4 _ hm
      simp [validLocker] at this
    simp only [World.WF, GoMap.set_of_not_mem _ _ _ hnk]
    refine ⟨h1, ?_, ?_, ?_⟩
    · simp only [GoMap.keys, List.map_append, List.map_cons, List.map_nil]
      rw [List.nodup_append]
      refine ⟨h2, by simp, ?_⟩
      intro x hx hx2
      simp at hx2
      subst hx2
      exact hnk hx
    · simp only [GoMap.vals, List.map_append, List.map_cons, List.map_nil] at h3 hfresh ⊢
      have hperm : List.Perm
          (List.map Prod.snd w.locker.volIDLocks ++
            (List.map Prod.snd w.locker.volNameLocks ++ [some w.heap.length]))
          (some w.heap.length ::
            (List.map Prod.snd w.locker.volIDLocks ++
              List.map Prod.snd w.locker.volNameLocks)) := by
        rw [← List.append_assoc]
        exact List.perm_append_singleton _ _
      rw [hperm.nodup_iff, List.nodup_cons]
      exact ⟨hfresh, h3⟩
    · intro v hv2
      simp only [GoMap.vals, List.map_append, List.map_cons, List.map_nil, List.mem_append,
        List.mem_singleton, List.length_append, List.length_singleton] at hv2 ⊢
      have hmono : ∀ v, validLocker w.heap.length v = true →
          validLocker (w.heap.length + 1) v = true := by
        intro v hv3
        obtain ⟨a, rfl, ha⟩ := (validLocker_iff _ _).mp hv3
        simp only [validLocker, decide_eq_true_eq]
        exact Nat.lt_succ_of_lt ha
      rcases hv2 with hv2 | hv2 | hv2
      · exact hmono v (h4 v (List.mem_append_left _ hv2))
      · exact hmono v (h4 v (List.mem_append_right _ hv2))
      · subst hv2; simp [validLocker]

theorem WF_LockCall_run (ctx : Context) (c : LockCall) (w : World) (h : w.WF) :
    (c.run ctx w).2.WF := by
  cases c with
  | ID k => exact WF_GetLockWithID ctx k w h
  | Name k => exact WF_GetLockWithName ctx k w h

/-- A lookup returns a nil error and the non-nil instance stored under its key
afterwards. -/
theorem LockCall_run_result (ctx : Context) (c : LockCall) (w : World) :
    ∃ a, (c.run ctx w).1 = (some a, none) ∧ c.stored (c.run ctx w).2 = some a := by
  cases c with
  | ID k =>
    simp only [LockCall.run, LockCall.stored]
    rcases GetLockWithID_cases ctx k w with ⟨b, hb, he⟩ | ⟨hb, he⟩
    · exact ⟨b, by rw [he], by rw [he]; exact hb⟩
    · exact ⟨w.heap.length, by rw [he], by rw [he]; simp [GoMap.get_set_self]⟩
  | Name k =>
    simp only [LockCall.run, LockCall.stored]
    rcases GetLockWithName_cases ctx k w with ⟨b, hb, he⟩ | ⟨hb, he⟩
    · exact ⟨b, by rw [he], by rw [he]; exact hb⟩
    · exact ⟨w.heap.length, by rw [he], by rw [he]; simp [GoMap.get_set_self]⟩

/-- A lookup never replaces or removes an entry: what is stored stays stored. -/
theorem stored_LockCall_run (ctx : Context) (c d : LockCall) (w : World) (a : Addr)
    (h : d.stored w = some a) : d.stored (c.run ctx w).2 = some a := by
  cases c with
  | ID k =>
    simp only [LockCall.run]
    rcases GetLockWithID_cases ctx k w with ⟨b, hb, he⟩ | ⟨hb, he⟩
    · rw [he]; exact h
    · rw [he]
      cases d with
      | ID k2 =>
        simp only [LockCall.stored] at h ⊢
        have hne : k2 ≠ k := by
          intro e; subst e; rw [hb] at h; cases h
        rw [GoMap.get_set_ne _ _ _ _ hne]; exact h
      | Name k2 => exact h
  | Name k =>
    simp only [LockCall.run]
    rcases GetLockWithName_cases ctx k w with ⟨b, hb, he⟩ | ⟨hb, he⟩
    · rw [he]; exact h
    · rw [he]
      cases d with
      | ID k2 => exact h
      | Name k2 =>
        simp only [LockCall.stored] at h ⊢
        have hne : k2 ≠ k := by
          intro e; subst e; rw [hb] at h; cases h
        rw [GoMap.get_set_ne _ _ _ _ hne]; exact h

/-- A lookup of a key already present changes nothing. -/
theorem LockCall_run_present (ctx : Context) (c : LockCall) (w : World)
    (h : c.stored w ≠ none) : (c.run ctx w).2 = w := by
  cases c with
  | ID k =>
    simp only [LockCall.run, LockCall.stored] at h ⊢
    rcases GetLockWithID_cases ctx k w with ⟨b, hb, he⟩ | ⟨hb, he⟩
    · rw [he]
    · exact absurd hb h
  | Name k =>
    simp only [LockCall.run, LockCall.stored] at h ⊢
    rcases GetLockWithName_cases ctx k w with ⟨b, hb, he⟩ | ⟨hb, he⟩
    · rw [he]
    · exact absurd hb h

theorem runCalls_cons (ctx : Context) (c : LockCall) (cs : List LockCall) (w : World) :
    runCalls ctx (c :: cs) w =
      ((c.run ctx w).1 :: (runCalls ctx cs (c.run ctx w).2).1,
        (runCalls ctx cs (c.run ctx w).2).2) := rfl

theorem runCalls_append (ctx : Context) (p q : List LockCall) (w : World) :
    runCalls ctx (p ++ q) w =
      ((runCalls ctx p w).1 ++ (runCalls ctx q (runCalls ctx p w).2).1,
        (runCalls ctx q (runCalls ctx p w).2).2) := by
  induction p generalizing w with
  | nil => simp [runCalls]
  | cons c p ih => simp [runCalls_cons, ih]

theorem WF_runCalls (ctx : Context) (cs : List LockCall) (w : World) (h : w.WF) :
    (runCalls ctx cs w).2.WF := by
  induction cs generalizing w with
  | nil => exact h
  | cons c cs ih => rw [runCalls_cons]; exact ih _ (WF_LockCall_run ctx c w h)

theorem stored_runCalls (ctx : Context) (cs : List LockCall) (d : LockCall) (w : World)
    (a : Addr) (h : d.stored w = some a) : d.stored (runCalls ctx cs w).2 = some a := by
  induction cs generalizing w with
  | nil => exact h
  | cons c cs ih => rw [runCalls_cons]; exact ih _ (stored_LockCall_run ctx c d w a h)

theorem length_runCalls (ctx : Context) (cs : List LockCall) (w : World) :
    (runCalls ctx cs w).1.length = cs.length := by
  induction cs generalizing w with
  | nil => rfl
  | cons c cs ih => rw [runCalls_cons]; simp [ih]

/-- Every result of a sequence of lookups is the instance stored under its key at the
end of the sequence, with a nil error. -/
theorem result_runCalls (ctx : Context) (cs : List LockCall) (w : World) (m : Nat)
    (c : LockCall) (hc : cs[m]? = some c) :
    ∃ a, (runCalls ctx cs w).1[m]? = some (some a, none) ∧
      c.stored (runCalls ctx cs w).2 = some a := by
  induction cs generalizing w m with
  | nil => simp at hc
  | cons d cs ih =>
    rw [runCalls_cons]
    cases m with
    | zero =>
      simp at hc
      subst hc
      obtain ⟨a, h1, h2⟩ := LockCall_run_result ctx d w
      exact ⟨a, by simp [h1], stored_runCalls ctx cs d _ a h2⟩
    | succ m =>
      simp at hc
      obtain ⟨a, h1, h2⟩ := ih (d.run ctx w).2 m hc
      exact ⟨a, by simpa using h1, h2⟩

theorem WF_emptyProvider (hp : List TryMutex) : (emptyProvider hp).WF := by
  simp [World.WF, emptyProvider, GoMap.keys, GoMap.vals]

/-- C5: on a lock provider created with empty maps, in every finite sequence of
GetLockWithID / GetLockWithName calls each call returns a nil error and a non-nil
lock; two calls in the same namespace with the same key return the same instance;
each map holds one entry per key; an entry present after some of the calls is still
there, unchanged, at the end; and a lookup of a key already present changes nothing. -/
theorem C5_registry_lookup_idempotent (ctx : Context) (hp : List TryMutex)
    (calls : List LockCall) :
    (runCalls ctx calls (emptyProvider hp)).1.length = calls.length ∧
    (∀ r ∈ (runCalls ctx calls (emptyProvider hp)).1, r.2 = none ∧ r.1 ≠ none) ∧
    (∀ (m n : Nat) (c : LockCall), calls[m]? = some c → calls[n]? = some c →
      (runCalls ctx calls (emptyProvider hp)).1[m]? =
        (runCalls ctx calls (emptyProvider hp)).1[n]?) ∧
    (GoMap.keys (runCalls ctx calls (emptyProvider hp)).2.locker.volIDLocks).Nodup ∧
    (GoMap.keys (runCalls ctx calls (emptyProvider hp)).2.locker.volNameLocks).Nodup ∧
    (∀ (n : Nat) (c : LockCall) (a : Addr),
      c.stored (runCalls ctx (calls.take n) (emptyProvider hp)).2 = some a →
      c.stored (runCalls ctx calls (emptyProvider hp)).2 = some a) ∧
    (∀ c : LockCall, c.stored (runCalls ctx calls (emptyProvider hp)).2 ≠ none →
      (c.run ctx (runCalls ctx calls (emptyProvider hp)).2).2 =
        (runCalls ctx calls (emptyProvider hp)).2) := by
  have hwf := WF_runCalls ctx calls _ (WF_emptyProvider hp)
  refine ⟨length_runCalls ctx calls _, ?_, ?_, hwf.1, hwf.2.1, ?_, ?_⟩
  · intro r hr
    obtain ⟨m, hm, hget⟩ := List.getElem_of_mem hr
    rw [length_runCalls] at hm
    obtain ⟨a, h1, -⟩ := result_runCalls ctx calls (emptyProvider hp) m calls[m]
      (List.getElem?_eq_getElem hm)
    have hm2 : m < (runCalls ctx calls (emptyProvider hp)).1.length := by
      rw [length_runCalls]; exact hm
    rw [List.getElem?_eq_getElem hm2] at h1
    simp only [Option.some.injEq] at h1
    rw [hget] at h1
    subst h1
    simp
  · intro m n c hm hn
    obtain ⟨a, h1, h2⟩ := result_runCalls ctx calls (emptyProvider hp) m c hm
    obtain ⟨b, h3, h4⟩ := result_runCalls ctx calls (emptyProvider hp) n c hn
    rw [h2] at h4
    cases h4
    rw [h1, h3]
  · intro n c a h
    have := stored_runCalls ctx (calls.drop n) c _ a h
    have e := runCalls_append ctx (calls.take n) (calls.drop n) (emptyProvider hp)
    rw [List.take_append_drop] at e
    rw [e]
    exact this
  · intro c hc
    exact LockCall_run_present ctx c _ hc

theorem GoMap.mem_of_get_some (m : GoMap) (k : String) (a : Addr)
    (h : GoMap.get m k = some a) : (k, some a) ∈ m := by
  induction m with
  | nil => simp [GoMap.get] at h
  | cons p m ih =>
    obtain ⟨k', v'⟩ := p
    by_cases h1 : k' = k
    · simp [GoMap.get, h1] at h
      subst h1; subst h
      simp
    · simp only [GoMap.get, h1, if_false] at h
      exact List.mem_cons_of_mem _ (ih h)

theorem GoMap.get_mem_vals_of_some (m : GoMap) (k : String) (a : Addr)
    (h : GoMap.get m k = some a) : some a ∈ GoMap.vals m := by
  have := GoMap.mem_of_get_some m k a h
  simp only [GoMap.vals, List.mem_map]
  exact ⟨_, this, rfl⟩

/-- One entry per instance: in a map without repeated values, two keys that give the
same lock are the same key. -/
theorem GoMap.get_injective (m : GoMap) (k1 k2 : String) (a : Addr)
    (hv : (GoMap.vals m).Nodup)
    (h1 : GoMap.get m k1 = some a) (h2 : GoMap.get m k2 = some a) : k1 = k2 := by
  induction m with
  | nil => simp [GoMap.get] at h1
  | cons p m ih =>
    obtain ⟨k', v'⟩ := p
    simp only [GoMap.vals, List.map_cons, List.nodup_cons] at hv
    by_cases e1 : k' = k1
    · by_cases e2 : k' = k2
      · rw [← e1, ← e2]
      · subst e1
        simp only [GoMap.get, e2, if_true, if_false] at h1 h2
        subst h1
        exact absurd (GoMap.get_mem_vals_of_some m k2 a h2) hv.1
    · by_cases e2 : k' = k2
      · subst e2
        simp only [GoMap.get, e1, if_true, if_false] at h1 h2
        subst h2
        exact absurd (GoMap.get_mem_vals_of_some m k1 a h1) hv.1
      · simp only [GoMap.get, e1, e2, if_false] at h1 h2
        exact ih hv.2 h1 h2

theorem WF_id_injective (w : World) (h : w.WF) (k1 k2 : String) (a : Addr)
    (h1 : GoMap.get w.locker.volIDLocks k1 = some a)
    (h2 : GoMap.get w.locker.volIDLocks k2 = some a) : k1 = k2 :=
  GoMap.get_injective _ k1 k2 a (List.Nodup.of_append_left h.2.2.1) h1 h2

theorem WF_id_name_disjoint (w : World) (h : w.WF) (k1 k2 : String) (a : Addr)
    (h1 : GoMap.get w.locker.volIDLocks k1 = some a)
    (h2 : GoMap.get w.locker.volNameLocks k2 = some a) : False := by
  have d := (List.nodup_append.mp h.2.2.1).2.2
  exact d (GoMap.get_mem_vals_of_some _ k1 a h1) (GoMap.get_mem_vals_of_some _ k2 a h2)

theorem WF_id_valid (w : World) (h : w.WF) (k : String) (a : Addr)
    (h1 : GoMap.get w.locker.volIDLocks k = some a) : a < w.heap.length := by
  have := h.2.2.2 _ (List.mem_append_left _ (GoMap.get_mem_vals_of_some _ k a h1))
  simpa [validLocker] using this

theorem WF_name_valid (w : World) (h : w.WF) (k : String) (a : Addr)
    (h1 : GoMap.get w.locker.volNameLocks k = some a) : a < w.heap.length := by
  have := h.2.2.2 _ (List.mem_append_right _ (GoMap.get_mem_vals_of_some _ k a h1))
  simpa [validLocker] using this

/-- The registry lookup of `k2` does not change whether the lock of another key `k1`
is held. -/
theorem idHeld_GetLockWithID_ne (ctx : Context) (k1 k2 : String) (w : World) (hne : k1 ≠ k2) :
    (lockProvider.GetLockWithID ctx k2 w).2.idHeld k1 = w.idHeld k1 ∧
    GoMap.get (lockProvider.GetLockWithID ctx k2 w).2.locker.volIDLocks k1 =
      GoMap.get w.locker.volIDLocks k1 := by
  rcases GetLockWithID_cases ctx k2 w with ⟨b, hb, he⟩ | ⟨hb, he⟩
  · rw [he]; exact ⟨rfl, rfl⟩
  · rw [he]
    refine ⟨?_, GoMap.get_set_ne _ _ _ _ hne⟩
    simp only [World.idHeld, GoMap.get_set_ne _ _ _ _ hne]
    cases h : GoMap.get w.locker.volIDLocks k1 with
    | none => rfl
    | some a =>
      simp only
      by_cases hlt : a < w.heap.length
      · rw [List.getElem?_append_left hlt]
      · have hn : w.heap[a]? = none := List.getElem?_eq_none (Nat.le_of_not_lt hlt)
        rw [hn]
        by_cases hlen : a = w.heap.length
        · subst hlen
          simp
        · have : (w.heap ++ [TryMutex.mk false])[a]? = none := by
            apply List.getElem?_eq_none
            simp only [List.length_append, List.length_singleton]
            exact Nat.lt_of_le_of_ne (Nat.le_of_not_lt hlt) (Ne.symm hlen)
          rw [this]

/-- C7: in a well-formed registry two distinct volume identifiers have two distinct
lock instances; a stage or unstage call for k2 whose own lock is free runs its handler
and returns its result, whatever the state of the lock of k1 (in particular while it
is held), and leaves the held / free state and the instance of the lock of k1 unchanged. -/
theorem C7_distinct_volumes_independent (i : interceptor) (ctx : Context)
    (info : UnaryServerInfo) (handler : UnaryHandler) (w : World) (k1 k2 : String)
    (hwf : w.WF) (hne : k1 ≠ k2) (hfree : w.idFree k2 = true) :
    (lockProvider.GetLockWithID ctx k1 w).1.1 ≠
      (lockProvider.GetLockWithID ctx k2 (lockProvider.GetLockWithID ctx k1 w).2).1.1 ∧
    (∀ req : NodeStageVolumeRequest, req.VolumeId = k2 →
      PassedThrough ctx (Request.NodeStageVolume req) handler w
        (i.nodeStageVolume ctx req info handler w) ∧
      (i.nodeStageVolume ctx req info handler w).2.idHeld k1 = w.idHeld k1 ∧
      GoMap.get (i.nodeStageVolume ctx req info handler w).2.locker.volIDLocks k1 =
        GoMap.get w.locker.volIDLocks k1) ∧
    (∀ req : NodeUnstageVolumeRequest, req.VolumeId = k2 →
      PassedThrough ctx (Request.NodeUnstageVolume req) handler w
        (i.nodeUnstageVolume ctx req info handler w) ∧
      (i.nodeUnstageVolume ctx req info handler w).2.idHeld k1 = w.idHeld k1 ∧
      GoMap.get (i.nodeUnstageVolume ctx req info handler w).2.locker.volIDLocks k1 =
        GoMap.get w.locker.volIDLocks k1) := by
  refine ⟨?_, ?_, ?_⟩
  · obtain ⟨a, h1, h2⟩ := LockCall_run_result ctx (LockCall.ID k1) w
    obtain ⟨b, h3, h4⟩ := LockCall_run_result ctx (LockCall.ID k2)
      (lockProvider.GetLockWithID ctx k1 w).2
    have h5 := stored_LockCall_run ctx (LockCall.ID k2) (LockCall.ID k1) _ a h2
    have hwf2 := WF_GetLockWithID ctx k2 _ (WF_GetLockWithID ctx k1 w hwf)
    simp only [LockCall.run, LockCall.stored] at h1 h2 h3 h4 h5
    rw [h1, h3]
    intro e
    simp only [Option.some.injEq] at e
    subst e
    exact hne (WF_id_injective _ hwf2 k1 k2 a h5 h4)
  · intro req hreq
    subst hreq
    obtain ⟨a, hg, hh, hr⟩ := stage_free i ctx req info handler w hfree
    refine ⟨(ran_under_lock _ ctx _ handler w _ a _ hg hh hr).1, ?_, ?_⟩
    · rw [hr]
      exact (idHeld_GetLockWithID_ne ctx k1 req.VolumeId w hne).1
    · rw [hr]
      exact (idHeld_GetLockWithID_ne ctx k1 req.VolumeId w hne).2
  · intro req hreq
    subst hreq
    obtain ⟨a, hg, hh, hr⟩ := unstage_free i ctx req info handler w hfree
    refine ⟨(ran_under_lock _ ctx _ handler w _ a _ hg hh hr).1, ?_, ?_⟩
    · rw [hr]
      exact (idHeld_GetLockWithID_ne ctx k1 req.VolumeId w hne).1
    · rw [hr]
      exact (idHeld_GetLockWithID_ne ctx k1 req.VolumeId w hne).2

/-- C7 at a concrete input: `vol-1` is held, a stage call for `vol-2` succeeds and
`vol-1` is still held afterwards. -/
theorem C7_distinct_volumes_independent_witness :
    Sample.held1.WF ∧ "vol-1" ≠ "vol-2" ∧ Sample.held1.idFree "vol-2" = true ∧
    Sample.held1.idHeld "vol-1" = true ∧
    (Sample.icpt.nodeStageVolume Sample.ctx (Sample.stage "vol-2") Sample.info
      Sample.okHandler Sample.held1).1 = Outcome.returned (some "ok") none ∧
    (Sample.icpt.nodeStageVolume Sample.ctx (Sample.stage "vol-2") Sample.info
      Sample.okHandler Sample.held1).2.idHeld "vol-1" = true :=
  have h := (C7_distinct_volumes_independent Sample.icpt Sample.ctx Sample.info
    Sample.okHandler Sample.held1 "vol-1" "vol-2" (by decide) (by decide) (by decide)).2.1
    (Sample.stage "vol-2") rfl
  ⟨by decide, by decide, by decide, by decide, h.1.1, h.2.1⟩

/-- A try-lock attempt on one mutex leaves every other mutex as it was. -/
theorem TryLock_heap_ne (a b : Addr) (t : Int) (w : World) (hne : a ≠ b) :
    (TryLocker.TryLock (some a) t w).2.heap[b]? = w.heap[b]? := by
  simp only [TryLocker.TryLock]
  cases h : w.heap[a]? with
  | none => rfl
  | some m =>
    simp only
    by_cases hl : m.locked = true
    · simp [hl, World.emit]
    · simp [hl, World.emit, List.getElem?_set_ne hne]

/-- After a try-lock attempt on an allocated mutex, that mutex is locked. -/
theorem TryLock_locks (a : Addr) (t : Int) (w : World) (hlt : a < w.heap.length) :
    (TryLocker.TryLock (some a) t w).2.heap[a]? = some (TryMutex.mk true) := by
  simp only [TryLocker.TryLock]
  cases h : w.heap[a]? with
  | none =>
    have := List.getElem?_eq_none_iff.mp h
    exact absurd hlt (Nat.not_lt.mpr this)
  | some m =>
    simp only
    by_cases hl : m.locked = true
    · simp only [hl, if_true, World.emit]
      rw [h, TryMutex.eq_of_locked m true hl]
    · simp only [hl, World.emit]
      simp [List.getElem?_set_self hlt]

theorem TryLock_result_free (b : Addr) (t : Int) (w : World)
    (h : w.heap[b]? = some (TryMutex.mk false)) :
    (TryLocker.TryLock (some b) t w).1 = Res.ok true := by
  rw [TryLock_free b t w h]

/-- C9: the ID and the name namespace are independent.  GetLockWithID leaves
volNameLocks untouched and its result does not depend on volNameLocks; GetLockWithName
likewise with volIDLocks; in a well-formed registry the instance returned for a string
by GetLockWithID differs from the one returned by GetLockWithName; and with one of the
two held, a TryLock on the other, if it is free, still succeeds. -/
theorem C9_namespaces_independent (ctx : Context) (w : World) (s : String) (hwf : w.WF) :
    ((lockProvider.GetLockWithID ctx s w).2.locker.volNameLocks = w.locker.volNameLocks ∧
      (lockProvider.GetLockWithName ctx s w).2.locker.volIDLocks = w.locker.volIDLocks) ∧
    (∀ m : GoMap,
      (lockProvider.GetLockWithID ctx s
          { w with locker := { w.locker with volNameLocks := m } }).1 =
        (lockProvider.GetLockWithID ctx s w).1 ∧
      (lockProvider.GetLockWithID ctx s
          { w with locker := { w.locker with volNameLocks := m } }).2.locker.volIDLocks =
        (lockProvider.GetLockWithID ctx s w).2.locker.volIDLocks ∧
      (lockProvider.GetLockWithName ctx s
          { w with locker := { w.locker with volIDLocks := m } }).1 =
        (lockProvider.GetLockWithName ctx s w).1 ∧
      (lockProvider.GetLockWithName ctx s
          { w with locker := { w.locker with volIDLocks := m } }).2.locker.volNameLocks =
        (lockProvider.GetLockWithName ctx s w).2.locker.volNameLocks) ∧
    ((lockProvider.GetLockWithID ctx s w).1.1 ≠
        (lockProvider.GetLockWithName ctx s (lockProvider.GetLockWithID ctx s w).2).1.1 ∧
      (lockProvider.GetLockWithName ctx s w).1.1 ≠
        (lockProvider.GetLockWithID ctx s (lockProvider.GetLockWithName ctx s w).2).1.1) ∧
    (∀ a b : Addr, GoMap.get w.locker.volIDLocks s = some a →
      GoMap.get w.locker.volNameLocks s = some b →
      a ≠ b ∧
      (w.heap[b]? = some (TryMutex.mk false) →
        (TryLocker.TryLock (some a) 0 w).2.lockedAt a = true ∧
        (TryLocker.TryLock (some b) 0 (TryLocker.TryLock (some a) 0 w).2).1 = Res.ok true) ∧
      (w.heap[a]? = some (TryMutex.mk false) →
        (TryLocker.TryLock (some b) 0 w).2.lockedAt b = true ∧
        (TryLocker.TryLock (some a) 0 (TryLocker.TryLock (some b) 0 w).2).1 = Res.ok true)) := by
  refine ⟨⟨?_, ?_⟩, ?_, ⟨?_, ?_⟩, ?_⟩
  · rcases GetLockWithID_cases ctx s w with ⟨b, hb, he⟩ | ⟨hb, he⟩ <;> rw [he]
  · rcases GetLockWithName_cases ctx s w with ⟨b, hb, he⟩ | ⟨hb, he⟩ <;> rw [he]
  · intro m
    refine ⟨?_, ?_, ?_, ?_⟩
    · simp only [lockProvider.GetLockWithID, newTryMutex]
      cases GoMap.get w.locker.volIDLocks s <;> rfl
    · simp only [lockProvider.GetLockWithID, newTryMutex]
      cases GoMap.get w.locker.volIDLocks s <;> rfl
    · simp only [lockProvider.GetLockWithName, newTryMutex]
      cases GoMap.get w.locker.volNameLocks s <;> rfl
    · simp only [lockProvider.GetLockWithName, newTryMutex]
      cases GoMap.get w.locker.volNameLocks s <;> rfl
  · obtain ⟨a, h1, h2⟩ := LockCall_run_result ctx (LockCall.ID s) w
    obtain ⟨b, h3, h4⟩ := LockCall_run_result ctx (LockCall.Name s)
      (lockProvider.GetLockWithID ctx s w).2
    have h5 := stored_LockCall_run ctx (LockCall.Name s) (LockCall.ID s) _ a h2
    have hwf2 := WF_GetLockWithName ctx s _ (WF_GetLockWithID ctx s w hwf)
    simp only [LockCall.run, LockCall.stored] at h1 h2 h3 h4 h5
    rw [h1, h3]
    intro e
    simp only [Option.some.injEq] at e
    subst e
    exact WF_id_name_disjoint _ hwf2 s s a h5 h4
  · obtain ⟨a, h1, h2⟩ := LockCall_run_result ctx (LockCall.Name s) w
    obtain ⟨b, h3, h4⟩ := LockCall_run_result ctx (LockCall.ID s)
      (lockProvider.GetLockWithName ctx s w).2
    have h5 := stored_LockCall_run ctx (LockCall.ID s) (LockCall.Name s) _ a h2
    have hwf2 := WF_GetLockWithID ctx s _ (WF_GetLockWithName ctx s w hwf)
    simp only [LockCall.run, LockCall.stored] at h1 h2 h3 h4 h5
    rw [h1, h3]
    intro e
    simp only [Option.some.injEq] at e
    subst e
    exact WF_id_name_disjoint _ hwf2 s s a h4 h5
  · intro a b ha hb
    have hne : a ≠ b := by
      intro e; subst e
      exact WF_id_name_disjoint w hwf s s a ha hb
    have hla := WF_id_valid w hwf s a ha
    have hlb := WF_name_valid w hwf s b hb
    refine ⟨hne, ?_, ?_⟩
    · intro hfree
      constructor
      · simp only [World.lockedAt, TryLock_locks a 0 w hla]
      · apply TryLock_result_free
        rw [TryLock_heap_ne a b 0 w hne]
        exact hfree
    · intro hfree
      constructor
      · simp only [World.lockedAt, TryLock_locks b 0 w hlb]
      · apply TryLock_result_free
        rw [TryLock_heap_ne b a 0 w (Ne.symm hne)]
        exact hfree

/-- C9 at a concrete input: `vol-1` has a lock in each namespace, at two addresses;
with the ID lock taken the name lock can still be taken. -/
theorem C9_namespaces_independent_witness :
    Sample.both.WF ∧ (0 : Addr) ≠ 1 ∧
    (TryLocker.TryLock (some 0) 0 Sample.both).2.lockedAt 0 = true ∧
    (TryLocker.TryLock (some 1) 0 (TryLocker.TryLock (some 0) 0 Sample.both).2).1 =
      Res.ok true :=
  have h := (C9_namespaces_independent Sample.ctx Sample.both "vol-1" (by decide)).2.2.2
    0 1 rfl rfl
  ⟨by decide, h.1, (h.2.1 rfl).1, (h.2.1 rfl).2⟩

/-- C5 at a concrete input: four lookups on a fresh provider; the two ID lookups of
`a` return the same instance, the other two return two further instances. -/
theorem C5_registry_lookup_idempotent_witness :
    (runCalls Sample.ctx
      [LockCall.ID "a", LockCall.Name "a", LockCall.ID "b", LockCall.ID "a"]
      (emptyProvider [])).1 =
      [(some 0, none), (some 1, none), (some 2, none), (some 0, none)] ∧
    (runCalls Sample.ctx
      [LockCall.ID "a", LockCall.Name "a", LockCall.ID "b", LockCall.ID "a"]
      (emptyProvider [])).1[0]? =
    (runCalls Sample.ctx
      [LockCall.ID "a", LockCall.Name "a", LockCall.ID "b", LockCall.ID "a"]
      (emptyProvider [])).1[3]? :=
  ⟨by decide,
    (C5_registry_lookup_idempotent Sample.ctx []
      [LockCall.ID "a", LockCall.Name "a", LockCall.ID "b", LockCall.ID "a"]).2.2.1
      0 3 (LockCall.ID "a") rfl rfl⟩

/-- The first event of a list of events. -/
theorem head_newEvents (w : World) (hp : List TryMutex) (lk : lockProvider) (e : Event)
    (es : List Event) :
    (w.newEvents { heap := hp, locker := lk, log := w.log ++ e :: es }).head? = some e := by
  rw [newEvents_append]; rfl

/-- C8: the interceptor returned by NewCustomSerialLock sends a NodeStageVolumeRequest
to nodeStageVolume and a NodeUnstageVolumeRequest to nodeUnstageVolume, both with
timeout 0; the first thing such a call does to a lock is a TryLock with timeout 0 on
the instance the registry holds under the ID key equal to the request's VolumeId; every
other request goes, with the same context, request, info and handler, to the generic
serializer, whose outcome and world are returned as they are. -/
theorem C8_router_dispatch (gocsiSerializer : UnaryServerInterceptor) (ctx : Context)
    (info : UnaryServerInfo) (handler : UnaryHandler) (w : World) :
    (∀ r : NodeStageVolumeRequest,
      (NewCustomSerialLock gocsiSerializer).2 ctx (Request.NodeStageVolume r) info handler w =
        interceptor.nodeStageVolume { opts := { timeout := 0 } } ctx r info handler w) ∧
    (∀ r : NodeUnstageVolumeRequest,
      (NewCustomSerialLock gocsiSerializer).2 ctx (Request.NodeUnstageVolume r) info handler w =
        interceptor.nodeUnstageVolume { opts := { timeout := 0 } } ctx r info handler w) ∧
    (∀ typeName payload : String,
      (NewCustomSerialLock gocsiSerializer).2 ctx (Request.Other typeName payload) info
          handler w =
        gocsiSerializer ctx (Request.Other typeName payload) info handler w) ∧
    (∀ r : NodeStageVolumeRequest,
      w.idFree r.VolumeId = true ∨ w.idHeld r.VolumeId = true →
      ∃ a, GoMap.get
          ((NewCustomSerialLock gocsiSerializer).2 ctx (Request.NodeStageVolume r) info
            handler w).2.locker.volIDLocks r.VolumeId = some a ∧
        (w.newEvents ((NewCustomSerialLock gocsiSerializer).2 ctx (Request.NodeStageVolume r)
          info handler w).2).head? = some (Event.TryLock a 0 (w.idFree r.VolumeId))) ∧
    (∀ r : NodeUnstageVolumeRequest,
      w.idFree r.VolumeId = true ∨ w.idHeld r.VolumeId = true →
      ∃ a, GoMap.get
          ((NewCustomSerialLock gocsiSerializer).2 ctx (Request.NodeUnstageVolume r) info
            handler w).2.locker.volIDLocks r.VolumeId = some a ∧
        (w.newEvents ((NewCustomSerialLock gocsiSerializer).2 ctx
          (Request.NodeUnstageVolume r) info handler w).2).head? =
          some (Event.TryLock a 0 (w.idFree r.VolumeId))) := by
  have hheld_not_free : ∀ k, w.idHeld k = true → w.idFree k = false := by
    intro k hk
    obtain ⟨a, h1, h2⟩ := (idHeld_iff w k).mp hk
    simp [World.idFree, h1, h2]
  refine ⟨fun _ => rfl, fun _ => rfl, fun _ _ => rfl, ?_, ?_⟩
  · intro r hr
    show ∃ a, GoMap.get
      (interceptor.nodeStageVolume { opts := { timeout := 0 } } ctx r info handler
        w).2.locker.volIDLocks r.VolumeId = some a ∧
      (w.newEvents (interceptor.nodeStageVolume { opts := { timeout := 0 } } ctx r info
        handler w).2).head? = some (Event.TryLock a 0 (w.idFree r.VolumeId))
    rcases hr with hfree | hheld
    · obtain ⟨a, hg, hh, hr⟩ := stage_free { opts := { timeout := 0 } } ctx r info handler w hfree
      rw [hr, hfree]
      exact ⟨a, GetLockWithID_stored ctx _ w a hg, head_newEvents _ _ _ _ _⟩
    · obtain ⟨a, h1, h2⟩ := (idHeld_iff w _).mp hheld
      rw [stage_pending _ ctx r info handler w a h1 h2, hheld_not_free _ hheld]
      exact ⟨a, h1, by simp [World.emit, World.newEvents]⟩
  · intro r hr
    show ∃ a, GoMap.get
      (interceptor.nodeUnstageVolume { opts := { timeout := 0 } } ctx r info handler
        w).2.locker.volIDLocks r.VolumeId = some a ∧
      (w.newEvents (interceptor.nodeUnstageVolume { opts := { timeout := 0 } } ctx r info
        handler w).2).head? = some (Event.TryLock a 0 (w.idFree r.VolumeId))
    rcases hr with hfree | hheld
    · obtain ⟨a, hg, hh, hr⟩ :=
        unstage_free { opts := { timeout := 0 } } ctx r info handler w hfree
      rw [hr, hfree]
      exact ⟨a, GetLockWithID_stored ctx _ w a hg, head_newEvents _ _ _ _ _⟩
    · obtain ⟨a, h1, h2⟩ := (idHeld_iff w _).mp hheld
      rw [unstage_pending _ ctx r info handler w a h1 h2, hheld_not_free _ hheld]
      exact ⟨a, h1, by simp [World.emit, World.newEvents]⟩

/-- C8 at concrete inputs: a request of another type reaches the generic serializer,
and nothing but that serializer's handler call is logged. -/
theorem C8_router_dispatch_witness :
    (NewCustomSerialLock Sample.passThrough).2 Sample.ctx (Request.Other "Probe" "x")
        Sample.info Sample.okHandler Sample.held1 =
      Sample.passThrough Sample.ctx (Request.Other "Probe" "x") Sample.info Sample.okHandler
        Sample.held1 ∧
    (Sample.held1.newEvents
      ((NewCustomSerialLock Sample.passThrough).2 Sample.ctx (Request.Other "Probe" "x")
        Sample.info Sample.okHandler Sample.held1).2) =
      [Event.Handler Sample.ctx (Request.Other "Probe" "x") Sample.held1.heap] :=
  ⟨(C8_router_dispatch Sample.passThrough Sample.ctx Sample.info Sample.okHandler
      Sample.held1).2.2.1 "Probe" "x",
    by decide⟩

/-- The behaviour of handleServer on every context whose request-ID entry, if
there is one, carries at least one value: the handler runs exactly once, on the
request unchanged, and its outcome is returned; with an entry under the key the
handler's context holds the composite value under that key, and otherwise the
handler receives the context unmodified. -/
theorem handleServer_rewrites (key : String) (ctx : Context) (req : Request)
    (info : UnaryServerInfo) (handler : UnaryHandler) (w : World) :
    (ctx.incomingMD = none →
      rewriteRequestIDInterceptor.handleServer key ctx req info handler w =
        invoke handler ctx req w) ∧
    (∀ md, ctx.incomingMD = some md → (MD.index md key).2 = false →
      rewriteRequestIDInterceptor.handleServer key ctx req info handler w =
        invoke handler ctx req w) ∧
    (∀ md id0 ids, ctx.incomingMD = some md → MD.index md key = (id0 :: ids, true) →
      rewriteRequestIDInterceptor.handleServer key ctx req info handler w =
        invoke handler (context.WithValue ctx key (key ++ "-" ++ id0)) req w ∧
      (context.WithValue ctx key (key ++ "-" ++ id0)).Value key = some (key ++ "-" ++ id0)) := by
  refine ⟨?_, ?_, ?_⟩
  · intro h
    simp [rewriteRequestIDInterceptor.handleServer, metadata.FromIncomingContext, h]
  · intro md h h2
    simp [rewriteRequestIDInterceptor.handleServer, metadata.FromIncomingContext, h, h2]
  · intro md id0 ids h h2
    constructor
    · simp [rewriteRequestIDInterceptor.handleServer, metadata.FromIncomingContext, h, h2]
    · simp [context.WithValue, Context.Value, List.lookup]

/-- The spec's example: metadata with request-id 7 gives the handler a context that
holds request-id-7 under the key. -/
theorem handleServer_example :
    (rewriteRequestIDInterceptor.handleServer "request-id" Sample.ctx7
      (Request.Other "Probe" "x") Sample.info Sample.idHandler Sample.free1).1 =
      Outcome.returned (some "request-id-7") none := by
  decide

/-- C10 fails on the code: when the incoming metadata has an entry under the
request-ID key that carries no value, handleServer panics on ID[0]; the handler is
not invoked and nothing is returned. -/
theorem C10_panics_on_entry_without_values (handler : UnaryHandler) :
    rewriteRequestIDInterceptor.handleServer "request-id" Sample.ctxEmptyID
        (Request.Other "Probe" "x") Sample.info handler Sample.free1 =
      (Outcome.panicked "runtime error: index out of range [0] with length 0",
        Sample.free1) ∧
    handlerArgs (Sample.free1.newEvents
      (rewriteRequestIDInterceptor.handleServer "request-id" Sample.ctxEmptyID
        (Request.Other "Probe" "x") Sample.info handler Sample.free1).2) = [] := by
  constructor <;> rfl

/-! ## Lemmas: interleaved invocations -/

theorem Compat_symm (t u : Invocation) (h : t.Compat u) : u.Compat t :=
  fun hu ht e => h ht hu e.symm

theorem Good_critical (w : World) (t : Invocation) (h : t.Good w)
    (hc : t.pc.inCritical = true) :
    ∃ a, t.pc.lock = some a ∧ GoMap.get w.locker.volIDLocks t.req.VolumeId = some a ∧
      w.heap[a]? = some (TryMutex.mk true) := by
  unfold Invocation.Good at h
  cases hpc : t.pc with
  | start => rw [hpc] at hc; simp [PC.inCritical] at hc
  | acquiring l => rw [hpc] at hc; simp [PC.inCritical] at hc
  | inHandler l =>
    rw [hpc] at h
    obtain ⟨a, h1, h2, h3⟩ := h
    exact ⟨a, by simp [PC.lock, h1], h2, h3⟩
  | releasing l o =>
    rw [hpc] at h
    obtain ⟨a, h1, h2, h3⟩ := h
    exact ⟨a, by simp [PC.lock, h1], h2, h3⟩
  | done o => rw [hpc] at hc; simp [PC.inCritical] at hc

/-- A world change that keeps every registry entry and every locked mutex keeps every
invocation's knowledge valid. -/
theorem Good_mono (w w' : World) (u : Invocation) (h : u.Good w)
    (hmap : ∀ k a, GoMap.get w.locker.volIDLocks k = some a →
      GoMap.get w'.locker.volIDLocks k = some a)
    (hheap : u.pc.inCritical = true → ∀ a, u.pc.lock = some a →
      w.heap[a]? = some (TryMutex.mk true) → w'.heap[a]? = some (TryMutex.mk true)) :
    u.Good w' := by
  unfold Invocation.Good at h ⊢
  cases hpc : u.pc with
  | start => trivial
  | acquiring l =>
    rw [hpc] at h
    obtain ⟨a, h1, h2⟩ := h
    exact ⟨a, h1, hmap _ _ h2⟩
  | inHandler l =>
    rw [hpc] at h hheap
    obtain ⟨a, h1, h2, h3⟩ := h
    exact ⟨a, h1, hmap _ _ h2, hheap rfl a (by simp [PC.lock, h1]) h3⟩
  | releasing l o =>
    rw [hpc] at h hheap
    obtain ⟨a, h1, h2, h3⟩ := h
    exact ⟨a, h1, hmap _ _ h2, hheap rfl a (by simp [PC.lock, h1]) h3⟩
  | done o => trivial

theorem heap_GetLockWithID (ctx : Context) (k : String) (w : World) (a : Addr) (m : TryMutex)
    (h : w.heap[a]? = some m) : (lockProvider.GetLockWithID ctx k w).2.heap[a]? = some m := by
  rcases GetLockWithID_cases ctx k w with ⟨b, hb, he⟩ | ⟨hb, he⟩
  · rw [he]; exact h
  · rw [he]
    have hlt : a < w.heap.length := (List.getElem?_eq_some_iff.mp h).1
    simp only
    rw [List.getElem?_append_left hlt]
    exact h

/-- One step of one invocation keeps its own knowledge valid, keeps every other
invocation's knowledge valid, and keeps it compatible with every other invocation. -/
theorem step_preserves (t u : Invocation) (w : World) (ht : t.Good w) (hu : u.Good w)
    (hc : t.Compat u) :
    (t.step w).1.Good (t.step w).2 ∧ u.Good (t.step w).2 ∧ (t.step w).1.Compat u ∧
      (t.step w).1.req = t.req := by
  unfold Invocation.step
  cases hpc : t.pc with
  | start =>
    simp only
    obtain ⟨a, h1, h2⟩ := LockCall_run_result t.ctx (LockCall.ID t.req.VolumeId) w
    simp only [LockCall.run, LockCall.stored] at h1 h2
    have e : lockProvider.GetLockWithID t.ctx t.req.VolumeId w =
        ((some a, none), (lockProvider.GetLockWithID t.ctx t.req.VolumeId w).2) := by
      rw [← h1]
    rw [e]
    simp only
    refine ⟨?_, ?_, ?_, by first | rfl | trivial⟩
    · simp only [Invocation.Good]
      exact ⟨a, rfl, h2⟩
    · apply Good_mono w _ u hu
      · intro k b hk
        exact stored_LockCall_run t.ctx (LockCall.ID t.req.VolumeId) (LockCall.ID k) w b hk
      · intro _ b _ hb
        exact heap_GetLockWithID _ _ _ _ _ hb
    · intro h; simp [PC.inCritical] at h
  | acquiring l =>
    simp only
    unfold Invocation.Good at ht
    rw [hpc] at ht
    obtain ⟨a, h1, h2⟩ := ht
    subst h1
    cases hh : w.heap[a]? with
    | none =>
      simp only [TryLocker.TryLock, hh]
      refine ⟨by simp [Invocation.Good], hu, ?_, by first | rfl | trivial⟩
      intro h; simp [PC.inCritical] at h
    | some m =>
      cases m with
      | mk b =>
        cases b with
        | true =>
          rw [TryLock_held a _ w hh]
          simp only
          refine ⟨by simp [Invocation.Good], ?_, ?_, by first | rfl | trivial⟩
          · apply Good_mono w _ u hu
            · exact fun _ _ h => h
            · exact fun _ _ _ h => h
          · intro h; simp [PC.inCritical] at h
        | false =>
          rw [TryLock_free a _ w hh]
          simp only
          have hlt : a < w.heap.length := (List.getElem?_eq_some_iff.mp hh).1
          refine ⟨?_, ?_, ?_, by first | rfl | trivial⟩
          · simp only [Invocation.Good, World.emit]
            exact ⟨a, rfl, h2, by rw [List.getElem?_set_self hlt]⟩
          · apply Good_mono w _ u hu
            · exact fun _ _ h => h
            intro _ b _ hb
            have hne : a ≠ b := by
              intro e; subst e; rw [hh] at hb; simp at hb
            simp only [World.emit]
            rw [List.getElem?_set_ne hne]
            exact hb
          · intro _ hcu
            obtain ⟨b, hb1, _, hb3⟩ := Good_critical w u hu hcu
            rw [hb1]
            simp only [PC.lock]
            intro e
            simp only [Option.some.injEq] at e
            subst e
            rw [hh] at hb3
            simp at hb3
  | inHandler l =>
    simp only [invoke]
    unfold Invocation.Good at ht
    rw [hpc] at ht
    refine ⟨?_, ?_, ?_, by first | rfl | trivial⟩
    · simp only [Invocation.Good, World.emit]
      exact ht
    · apply Good_mono w _ u hu
      · exact fun _ _ h => h
      · exact fun _ _ _ h => h
    · intro _ hcu
      have := hc (by rw [hpc]; rfl) hcu
      rw [hpc] at this
      exact this
  | releasing l o =>
    simp only
    unfold Invocation.Good at ht
    rw [hpc] at ht
    obtain ⟨a, h1, h2, h3⟩ := ht
    subst h1
    rw [Unlock_held a w h3]
    simp only
    refine ⟨by simp [Invocation.Good], ?_, ?_, by first | rfl | trivial⟩
    · apply Good_mono w _ u hu
      · exact fun _ _ h => h
      intro hcu b hbl hb
      have hne : a ≠ b := by
        intro e; subst e
        have := hc (by rw [hpc]; rfl) hcu
        rw [hpc, hbl] at this
        exact this rfl
      simp only [World.emit]
      rw [List.getElem?_set_ne hne]
      exact hb
    · intro h; simp [PC.inCritical] at h
  | done o =>
    simp only
    refine ⟨ht, hu, hc, by first | rfl | trivial⟩

theorem Config.step_of_none (c : Config) (n : Nat) (h : c.invocations[n]? = none) :
    c.step n = c := by
  simp [Config.step, h]

theorem Config.step_of_some (c : Config) (n : Nat) (t : Invocation)
    (h : c.invocations[n]? = some t) :
    c.step n = { world := (t.step c.world).2, invocations := c.invocations.set n (t.step c.world).1 } := by
  simp [Config.step, h]

/-- After invocation `n` moved, slot `n` holds its new state and the other slots are
as before. -/
theorem Config.step_get (c : Config) (n m : Nat) (t : Invocation)
    (h : c.invocations[n]? = some t) :
    (c.step n).invocations[m]? =
      if n = m then some (t.step c.world).1 else c.invocations[m]? := by
  rw [Config.step_of_some c n t h]
  simp only
  rw [List.getElem?_set]
  have hlt : n < c.invocations.length := (List.getElem?_eq_some_iff.mp h).1
  simp [hlt]

theorem Inv_step (c : Config) (n : Nat) (h : c.Inv) : (c.step n).Inv := by
  cases hn : c.invocations[n]? with
  | none => rw [Config.step_of_none c n hn]; exact h
  | some t =>
    obtain ⟨hgood, hcompat⟩ := h
    have htg := hgood n t hn
    have hw : (c.step n).world = (t.step c.world).2 := by
      rw [Config.step_of_some c n t hn]
    constructor
    · intro m u hu
      rw [Config.step_get c n m t hn] at hu
      rw [hw]
      by_cases e : n = m
      · simp only [e, if_true, Option.some.injEq] at hu
        subst hu
        have d : Invocation.Good c.world { t with pc := PC.start } := by
          simp [Invocation.Good]
        have dc : t.Compat { t with pc := PC.start } := by
          intro _ h2; simp [PC.inCritical] at h2
        exact (step_preserves t _ c.world htg d dc).1
      · simp only [e, if_false] at hu
        exact (step_preserves t u c.world htg (hgood m u hu) (hcompat n m t u e hn hu)).2.1
    · intro m1 m2 u1 u2 hne h1 h2
      rw [Config.step_get c n m1 t hn] at h1
      rw [Config.step_get c n m2 t hn] at h2
      by_cases e1 : n = m1
      · have e2 : ¬ n = m2 := fun e => hne (e1.symm.trans e)
        simp only [e1, if_true, Option.some.injEq] at h1
        simp only [e2, if_false] at h2
        subst h1
        exact (step_preserves t u2 c.world htg (hgood m2 u2 h2)
          (hcompat n m2 t u2 e2 hn h2)).2.2.1
      · simp only [e1, if_false] at h1
        by_cases e2 : n = m2
        · simp only [e2, if_true, Option.some.injEq] at h2
          subst h2
          exact Compat_symm _ _ (step_preserves t u1 c.world htg (hgood m1 u1 h1)
            (hcompat n m1 t u1 e1 hn h1)).2.2.1
        · simp only [e2, if_false] at h2
          exact hcompat m1 m2 u1 u2 hne h1 h2

theorem Inv_run (c : Config) (schedule : List Nat) (h : c.Inv) : (c.run schedule).Inv := by
  induction schedule generalizing c with
  | nil => exact h
  | cons n ns ih => exact ih (c.step n) (Inv_step c n h)

theorem Inv_init (w : World) (calls : List (Context × NodeRequest × UnaryHandler)) :
    (Config.init w calls).Inv := by
  have hstart : ∀ (n : Nat) (t : Invocation),
      (Config.init w calls).invocations[n]? = some t → t.pc = PC.start := by
    intro n t ht
    simp only [Config.init, List.getElem?_map, Option.map_eq_some'] at ht
    obtain ⟨x, _, hx⟩ := ht
    rw [← hx]
  constructor
  · intro n t ht
    simp [Invocation.Good, hstart n t ht]
  · intro m n t u _ ht _ hc
    rw [hstart m t ht] at hc
    simp [PC.inCritical] at hc

/-- C6: whatever the initial world, the invocations and the schedule, two distinct
stage / unstage invocations with the same VolumeId are never both between their
successful TryLock and their Unlock; and while one of them is there, the try-lock
attempt of the other ends that invocation at once with the Aborted "pending" error,
without changing any mutex and without disturbing the holder. -/
theorem C6_at_most_one_in_handler (w : World)
    (calls : List (Context × NodeRequest × UnaryHandler)) (schedule : List Nat) (m n : Nat)
    (hmn : m ≠ n)
    (hk : ((Config.init w calls).run schedule).volumeId m =
      ((Config.init w calls).run schedule).volumeId n) :
    ¬ (((Config.init w calls).run schedule).inCritical m = true ∧
        ((Config.init w calls).run schedule).inCritical n = true) ∧
    (((Config.init w calls).run schedule).inCritical m = true →
      ∀ lock, ((Config.init w calls).run schedule).pc n = some (PC.acquiring lock) →
        (((Config.init w calls).run schedule).step n).pc n =
          some (PC.done (Outcome.returned none
            (some (GoError.status codes.Aborted "pending")))) ∧
        (((Config.init w calls).run schedule).step n).world.heap =
          ((Config.init w calls).run schedule).world.heap ∧
        (((Config.init w calls).run schedule).step n).inCritical m = true) := by
  have hinv := Inv_run _ schedule (Inv_init w calls)
  generalize (Config.init w calls).run schedule = c at hk hinv
  obtain ⟨hgood, hcompat⟩ := hinv
  have key : ∀ t : Invocation, c.invocations[m]? = some t → t.pc.inCritical = true →
      ∀ u : Invocation, c.invocations[n]? = some u →
      ∃ a, t.pc.lock = some a ∧ c.world.heap[a]? = some (TryMutex.mk true) ∧
        GoMap.get c.world.locker.volIDLocks u.req.VolumeId = some a := by
    intro t ht htc u hu
    obtain ⟨a, h1, h2, h3⟩ := Good_critical c.world t (hgood m t ht) htc
    have hkk : t.req.VolumeId = u.req.VolumeId := by
      simpa [Config.volumeId, ht, hu] using hk
    exact ⟨a, h1, h3, hkk ▸ h2⟩
  constructor
  · rintro ⟨hm, hn⟩
    simp only [Config.inCritical] at hm hn
    cases ht : c.invocations[m]? with
    | none => simp [ht] at hm
    | some t =>
      cases hu : c.invocations[n]? with
      | none => simp [hu] at hn
      | some u =>
        simp only [ht] at hm
        simp only [hu] at hn
        obtain ⟨a, h1, _, h3⟩ := key t ht hm u hu
        obtain ⟨b, h4, h5, _⟩ := Good_critical c.world u (hgood n u hu) hn
        rw [h3] at h5
        cases h5
        exact hcompat m n t u hmn ht hu hm hn (h1.trans h4.symm)
  · intro hm lock hpc
    simp only [Config.inCritical] at hm
    cases ht : c.invocations[m]? with
    | none => simp [ht] at hm
    | some t =>
      simp only [ht] at hm
      cases hu : c.invocations[n]? with
      | none => simp [Config.pc, hu] at hpc
      | some u =>
        have hupc : u.pc = PC.acquiring lock := by
          simpa [Config.pc, hu] using hpc
        obtain ⟨a, h1, h2, h3⟩ := key t ht hm u hu
        have hug := hgood n u hu
        unfold Invocation.Good at hug
        rw [hupc] at hug
        obtain ⟨b, hb1, hb2⟩ := hug
        rw [h3] at hb2
        cases hb2
        subst hb1
        have hstep : u.step c.world =
            ({ u with pc := PC.done (Outcome.returned none
                (some (GoError.status codes.Aborted "pending"))) },
              c.world.emit (Event.TryLock a 0 false)) := by
          simp [Invocation.step, hupc, TryLock_held a 0 c.world h2, status.Error, pending]
        refine ⟨?_, ?_, ?_⟩
        · simp [Config.pc, Config.step_get c n n u hu, hstep]
        · rw [Config.step_of_some c n u hu, hstep]
          rfl
        · simp only [Config.inCritical, Config.step_get c n m u hu, if_neg (Ne.symm hmn), ht]
          exact hm

/-- C6 at a concrete input: two invocations for `vol-1`; after invocation 0 took the
lock and invocation 1 looked the lock up, invocation 0 is in its critical section and
the try-lock attempt of invocation 1 ends it with the pending error. -/
theorem C6_at_most_one_in_handler_witness :
    (0 : Nat) ≠ 1 ∧
    ((Config.init (emptyProvider [])
      [(Sample.ctx, NodeRequest.Stage (Sample.stage "vol-1"), Sample.okHandler),
       (Sample.ctx, NodeRequest.Unstage (Sample.unstage "vol-1"), Sample.okHandler)]).run
      [0, 0, 1]).inCritical 0 = true ∧
    ((Config.init (emptyProvider [])
      [(Sample.ctx, NodeRequest.Stage (Sample.stage "vol-1"), Sample.okHandler),
       (Sample.ctx, NodeRequest.Unstage (Sample.unstage "vol-1"), Sample.okHandler)]).run
      [0, 0, 1]).inCritical 1 = false ∧
    (((Config.init (emptyProvider [])
      [(Sample.ctx, NodeRequest.Stage (Sample.stage "vol-1"), Sample.okHandler),
       (Sample.ctx, NodeRequest.Unstage (Sample.unstage "vol-1"), Sample.okHandler)]).run
      [0, 0, 1]).step 1).pc 1 =
      some (PC.done (Outcome.returned none (some (GoError.status codes.Aborted "pending")))) :=
  have h := C6_at_most_one_in_handler (emptyProvider [])
    [(Sample.ctx, NodeRequest.Stage (Sample.stage "vol-1"), Sample.okHandler),
     (Sample.ctx, NodeRequest.Unstage (Sample.unstage "vol-1"), Sample.okHandler)]
    [0, 0, 1] 0 1 (by decide) (by decide)
  ⟨by decide, by decide, by decide, (h.2 (by decide) (some 0) (by decide)).1⟩

/-- The scenario of the spec: call A for `vol-1` takes the lock; call B for `vol-1`,
issued while A is in its handler, gets the pending error; after A completed, call C
for `vol-1` succeeds. -/
theorem scenario_vol1 :
    ((Config.init (emptyProvider [])
      [(Sample.ctx, NodeRequest.Stage (Sample.stage "vol-1"), Sample.okHandler),
       (Sample.ctx, NodeRequest.Stage (Sample.stage "vol-1"), Sample.okHandler),
       (Sample.ctx, NodeRequest.Stage (Sample.stage "vol-1"), Sample.okHandler)]).run
      [0, 0, 1, 1, 0, 0, 2, 2, 2, 2]).invocations.map Invocation.pc =
      [PC.done (Outcome.returned (some "ok") none),
       PC.done (Outcome.returned none (some (GoError.status codes.Aborted "pending"))),
       PC.done (Outcome.returned (some "ok") none)] := by
  decide

/-- The interleaved model agrees with the sequential one: an invocation that performs
its four actions with nothing in between ends with the outcome and in the world of
`nodeStageVolume` / `nodeUnstageVolume` with timeout `0`. -/
theorem runAlone_stage (ctx : Context) (r : NodeStageVolumeRequest) (info : UnaryServerInfo)
    (handler : UnaryHandler) (w : World) :
    (Invocation.runAlone 4
      { ctx := ctx, req := NodeRequest.Stage r, handler := handler, pc := PC.start } w).1.pc =
      PC.done (interceptor.nodeStageVolume { opts := { timeout := 0 } } ctx r info handler w).1 ∧
    (Invocation.runAlone 4
      { ctx := ctx, req := NodeRequest.Stage r, handler := handler, pc := PC.start } w).2 =
      (interceptor.nodeStageVolume { opts := { timeout := 0 } } ctx r info handler w).2 := by
  obtain ⟨a, h1, -⟩ := LockCall_run_result ctx (LockCall.ID r.VolumeId) w
  simp only [LockCall.run] at h1
  have e : lockProvider.GetLockWithID ctx r.VolumeId w =
      ((some a, none), (lockProvider.GetLockWithID ctx r.VolumeId w).2) := by
    rw [← h1]
  generalize (lockProvider.GetLockWithID ctx r.VolumeId w).2 = g at e
  cases hh : g.heap[a]? with
  | none =>
    simp [Invocation.runAlone, Invocation.step, interceptor.nodeStageVolume,
      NodeRequest.VolumeId, e, TryLocker.TryLock, hh]
  | some m =>
    cases m with
    | mk b =>
      have hlt : a < g.heap.length := (List.getElem?_eq_some_iff.mp hh).1
      cases b with
      | true =>
        simp [Invocation.runAlone, Invocation.step, interceptor.nodeStageVolume,
          NodeRequest.VolumeId, e, TryLocker.TryLock, hh]
      | false =>
        simp [Invocation.runAlone, Invocation.step, interceptor.nodeStageVolume,
          NodeRequest.VolumeId, NodeRequest.toRequest, e, TryLocker.TryLock, hh, invoke,
          World.emit, TryLocker.Unlock, List.getElem?_set_self hlt]

theorem runAlone_unstage (ctx : Context) (r : NodeUnstageVolumeRequest)
    (info : UnaryServerInfo) (handler : UnaryHandler) (w : World) :
    (Invocation.runAlone 4
      { ctx := ctx, req := NodeRequest.Unstage r, handler := handler, pc := PC.start } w).1.pc =
      PC.done
        (interceptor.nodeUnstageVolume { opts := { timeout := 0 } } ctx r info handler w).1 ∧
    (Invocation.runAlone 4
      { ctx := ctx, req := NodeRequest.Unstage r, handler := handler, pc := PC.start } w).2 =
      (interceptor.nodeUnstageVolume { opts := { timeout := 0 } } ctx r info handler w).2 := by
  obtain ⟨a, h1, -⟩ := LockCall_run_result ctx (LockCall.ID r.VolumeId) w
  simp only [LockCall.run] at h1
  have e : lockProvider.GetLockWithID ctx r.VolumeId w =
      ((some a, none), (lockProvider.GetLockWithID ctx r.VolumeId w).2) := by
    rw [← h1]
  generalize (lockProvider.GetLockWithID ctx r.VolumeId w).2 = g at e
  cases hh : g.heap[a]? with
  | none =>
    simp [Invocation.runAlone, Invocation.step, interceptor.nodeUnstageVolume,
      NodeRequest.VolumeId, e, TryLocker.TryLock, hh]
  | some m =>
    cases m with
    | mk b =>
      have hlt : a < g.heap.length := (List.getElem?_eq_some_iff.mp hh).1
      cases b with
      | true =>
        simp [Invocation.runAlone, Invocation.step, interceptor.nodeUnstageVolume,
          NodeRequest.VolumeId, e, TryLocker.TryLock, hh]
      | false =>
        simp [Invocation.runAlone, Invocation.step, interceptor.nodeUnstageVolume,
          NodeRequest.VolumeId, NodeRequest.toRequest, e, TryLocker.TryLock, hh, invoke,
          World.emit, TryLocker.Unlock, List.getElem?_set_self hlt]

/-! ## Well-formedness is an invariant of everything the interceptor does -/

theorem WF_of_same (w w' : World) (hl : w'.locker = w.locker)
    (hh : w'.heap.length = w.heap.length) (h : w.WF) : w'.WF := by
  unfold World.WF at h ⊢
  rw [hl, hh]
  exact h

theorem WF_TryLock (lock : TryLocker) (t : Int) (w : World) (h : w.WF) :
    (lock.TryLock t w).2.WF := by
  apply WF_of_same w _ _ _ h
  · unfold TryLocker.TryLock
    split
    · rfl
    · split
      · rfl
      · split <;> rfl
  · unfold TryLocker.TryLock
    split
    · rfl
    · split
      · rfl
      · split <;> simp [World.emit]

theorem WF_Unlock (lock : TryLocker) (w : World) (h : w.WF) : (lock.Unlock w).2.WF := by
  apply WF_of_same w _ _ _ h
  · unfold TryLocker.Unlock
    split
    · rfl
    · split
      · rfl
      · split <;> rfl
  · unfold TryLocker.Unlock
    split
    · rfl
    · split
      · rfl
      · split <;> simp [World.emit]

theorem WF_invoke (handler : UnaryHandler) (ctx : Context) (req : Request) (w : World)
    (h : w.WF) : (invoke handler ctx req w).2.WF :=
  WF_of_same w _ rfl rfl h

/-- One action of an invocation keeps the world well-formed. -/
theorem WF_Invocation_step (t : Invocation) (w : World) (h : w.WF) : (t.step w).2.WF := by
  unfold Invocation.step
  cases t.pc with
  | start =>
    simp only
    have := WF_GetLockWithID t.ctx t.req.VolumeId w h
    split
    · rename_i e; rw [e] at this; exact this
    · rename_i e; rw [e] at this; exact this
  | acquiring l =>
    simp only
    have := WF_TryLock l 0 w h
    split
    · rename_i e; rw [e] at this; exact this
    · rename_i e; rw [e] at this; exact this
    · rename_i e; rw [e] at this; exact this
  | inHandler l => exact WF_invoke t.handler t.ctx t.req.toRequest w h
  | releasing l o =>
    simp only
    have := WF_Unlock l w h
    split
    · rename_i e; rw [e] at this; exact this
    · rename_i e; rw [e] at this; exact this
  | done o => exact h

theorem WF_Config_step (c : Config) (n : Nat) (h : c.world.WF) : (c.step n).world.WF := by
  cases hn : c.invocations[n]? with
  | none => rw [Config.step_of_none c n hn]; exact h
  | some t => rw [Config.step_of_some c n t hn]; exact WF_Invocation_step t c.world h

/-- Every world reached by interleaved invocations from a well-formed world, in
particular from the empty provider of `NewCustomSerialLock`, is well-formed. -/
theorem WF_Config_run (c : Config) (schedule : List Nat) (h : c.world.WF) :
    (c.run schedule).world.WF := by
  induction schedule generalizing c with
  | nil => exact h
  | cons n ns ih => exact ih (c.step n) (WF_Config_step c n h)

theorem WF_runAlone (fuel : Nat) (t : Invocation) (w : World) (h : w.WF) :
    (Invocation.runAlone fuel t w).2.WF := by
  induction fuel generalizing t w with
  | zero => exact h
  | succ k ih => exact ih _ _ (WF_Invocation_step t w h)

/-- The two wrappers of the interceptor built by `NewCustomSerialLock` keep the world
well-formed. -/
theorem WF_wrappers (ctx : Context) (info : UnaryServerInfo) (handler : UnaryHandler)
    (w : World) (h : w.WF) :
    (∀ r : NodeStageVolumeRequest,
      (interceptor.nodeStageVolume { opts := { timeout := 0 } } ctx r info handler w).2.WF) ∧
    (∀ r : NodeUnstageVolumeRequest,
      (interceptor.nodeUnstageVolume { opts := { timeout := 0 } } ctx r info handler w).2.WF) := by
  constructor
  · intro r
    rw [← (runAlone_stage ctx r info handler w).2]
    exact WF_runAlone 4 _ w h
  · intro r
    rw [← (runAlone_unstage ctx r info handler w).2]
    exact WF_runAlone 4 _ w h

/-- In a well-formed world every ID key is either free or held. -/
theorem WF_free_or_held (w : World) (h : w.WF) (k : String) :
    w.idFree k = true ∨ w.idHeld k = true := by
  cases hk : GoMap.get w.locker.volIDLocks k with
  | none => exact Or.inl ((idFree_iff w k).mpr (Or.inl hk))
  | some a =>
    have hlt := WF_id_valid w h k a hk
    have hsome : w.heap[a]? = some (w.heap[a]) := List.getElem?_eq_getElem hlt
    cases hm : w.heap[a] with
    | mk b =>
      rw [hm] at hsome
      cases b with
      | false => exact Or.inl ((idFree_iff w k).mpr (Or.inr ⟨a, hk, hsome⟩))
      | true => exact Or.inr ((idHeld_iff w k).mpr ⟨a, hk, hsome⟩)

/-- Under every schedule, an invocation that is between its successful TryLock and its
Unlock works on the instance the registry stores for its VolumeId, and that mutex is
locked: the lock is held for as long as the handler runs, whatever the other
invocations do meanwhile. -/
theorem critical_holds_lock (w : World)
    (calls : List (Context × NodeRequest × UnaryHandler)) (schedule : List Nat) (n : Nat)
    (t : Invocation)
    (ht : ((Config.init w calls).run schedule).invocations[n]? = some t)
    (hc : t.pc.inCritical = true) :
    ∃ a, t.pc.lock = some a ∧
      GoMap.get ((Config.init w calls).run schedule).world.locker.volIDLocks t.req.VolumeId =
        some a ∧
      ((Config.init w calls).run schedule).world.lockedAt a = true := by
  have hinv := Inv_run _ schedule (Inv_init w calls)
  obtain ⟨a, h1, h2, h3⟩ := Good_critical _ t (hinv.1 n t ht) hc
  exact ⟨a, h1, h2, by simp [World.lockedAt, h3]⟩

/-- The provider built by `NewCustomSerialLock` is the empty provider in an empty
heap, and it is well-formed. -/
theorem NewCustomSerialLock_locker (gocsiSerializer : UnaryServerInterceptor) :
    (NewCustomSerialLock gocsiSerializer).1 = emptyProvider [] ∧
      (NewCustomSerialLock gocsiSerializer).1.WF :=
  ⟨rfl, WF_emptyProvider []⟩

end CsiPowerstore
